import Mathlib

/-!
Verification of the crawl orchestration engine of the
`azens1995/ir-assignment-crawler-p01` repository (a Selenium crawler for the
Coventry University Pure portal).

The development is a shallow embedding of the Python sources:

* `src/utils.py`   — URL/page-number helpers, `send_to_api`, `RobotsPolicy`;
* `src/parser.py`  — `PublicationParser` (extraction gates, `get_total_pages`,
  `parse_publication_detail`);
* `src/crawler.py` — `CoventryPublicationsCrawler` (`_normalize_query_url`,
  `navigate_to_page` outcome handling, `process_publications_with_details`,
  `crawl_publication_details`, and the `crawl_all_pages` traversal loop).

External collaborators (the Selenium renderer, BeautifulSoup selector and
regular-expression matching, and the HTTP channel) are represented by the data
they produce: a rendered listing page is abstracted to the selector/regex
results the Python code reads off it (`Container`, `Pagination`), and the HTTP
channel to per-attempt boolean/ternary outcomes.  The mutable crawler object is
threaded as an explicit state value.  All definitions are executable.
-/

/-! ## Decimal strings

Models Python `str(n)` for a non-negative integer (used by the traversal loop
to re-encode the page index) and the decimal value of a digit string (used by
`get_page_number_from_url` for the captured `page=(\d+)` group and by
`_extract_publication_data` for `int(year)` after `str.isdigit`). -/

/-- Value of a big-endian digit-character list, as Python `int` on a digit
string computes it. -/
def digitsVal (l : List Char) : Nat :=
  l.foldl (fun n c => n * 10 + (c.toNat - 48)) 0

/-- Big-endian digit characters of `n`, with `fuel` bounding the recursion
depth (any `fuel ≥ n` is exact). -/
def natToStrAux : Nat → Nat → List Char
  | 0, _ => []
  | fuel + 1, n =>
    if n = 0 then [] else natToStrAux fuel (n / 10) ++ [Nat.digitChar (n % 10)]

/-- Decimal rendering of a natural number: models Python `str(n)`. -/
def natToStr (n : Nat) : String :=
  if n = 0 then "0" else String.mk (natToStrAux n n)

/-- Python `str.isdigit` restricted to ASCII: non-empty and all digits. -/
def pyIsDigit (s : String) : Bool :=
  !s.isEmpty && s.data.all Char.isDigit

/-! ## Text helpers from `src/utils.py` -/

/-- Python `s.startswith(pre)` over character lists (spelled out because the
library string primitives are opaque to the kernel). -/
def charsStartWith : List Char → List Char → Bool
  | _, [] => true
  | [], _ :: _ => false
  | a :: as, b :: bs => a == b && charsStartWith as bs

/-- Python `s.startswith(pre)`. -/
def strStartsWith (s pre : String) : Bool :=
  charsStartWith s.data pre.data

/-- Python `s.split()` with no separator: the maximal whitespace-free words,
`acc` holding the current word reversed. -/
def wordsAux : List Char → List Char → List String
  | [], acc => if acc.isEmpty then [] else [String.mk acc.reverse]
  | c :: rest, acc =>
    if c.isWhitespace then
      if acc.isEmpty then wordsAux rest []
      else String.mk acc.reverse :: wordsAux rest []
    else wordsAux rest (c :: acc)

/-- Python `s.split()`. -/
def pySplitWs (s : String) : List String :=
  wordsAux s.data []

/-- Python `s.strip()`. -/
def pyStrip (s : String) : String :=
  String.mk (((s.data.dropWhile Char.isWhitespace).reverse.dropWhile
    Char.isWhitespace).reverse)

/-- `utils.clean_text`: `" ".join(text.strip().split())` — collapse whitespace
runs and trim (`split()` already ignores the surrounding whitespace). -/
def cleanText (s : String) : String :=
  " ".intercalate (pySplitWs s)

/-- `utils.validate_url`: non-empty and starting with `http://` or
`https://`. -/
def validateUrl (url : String) : Bool :=
  if url = "" then false
  else strStartsWith url "http://" || strStartsWith url "https://"

/-- Python regex word character (`\w`): alphanumeric or underscore (ASCII
model). -/
def isWordChar (c : Char) : Bool :=
  c.isAlphanum || c == '_'

/-- One position of the search for `\b(19|20)\d{2}\b` in
`utils.extract_year_from_text`: `prev` is the character before the current
position (for the left word boundary). -/
def yearHere (prev : Option Char) : List Char → Option (List Char)
  | c1 :: c2 :: c3 :: c4 :: rest =>
    if ((c1 == '1' && c2 == '9') || (c1 == '2' && c2 == '0'))
        && c3.isDigit && c4.isDigit
        && (match prev with | none => true | some p => !isWordChar p)
        && (match rest with | [] => true | r :: _ => !isWordChar r) then
      some [c1, c2, c3, c4]
    else none
  | _ => none

/-- Left-to-right scan for the first `\b(19|20)\d{2}\b` match. -/
def findYearAux : Option Char → List Char → Option (List Char)
  | _, [] => none
  | prev, c :: rest =>
    match yearHere prev (c :: rest) with
    | some y => some y
    | none => findYearAux (some c) rest

/-- `utils.extract_year_from_text`: first `\b(19|20)\d{2}\b` match of the
text, or the empty string. -/
def extractYearFromText (s : String) : String :=
  if s = "" then ""
  else
    match findYearAux none s.data with
    | some y => String.mk y
    | none => ""

/-- `utils.format_authors`: clean each name, drop empties, join with
`", "`. -/
def formatAuthors (authors : List String) : String :=
  ", ".intercalate ((authors.map cleanText).filter (fun a => a ≠ ""))

/-- `utils.format_author_links`: drop whitespace-only links, join the original
strings with `", "`. -/
def formatAuthorLinks (links : List String) : String :=
  ", ".intercalate (links.filter (fun l => pyStrip l ≠ ""))

/-! ## URLs

`urllib.parse.ParseResult` is embedded as a structure; the query string is
kept in its `parse_qs` form (an association list with unique keys, which is
what the traversal loop manipulates through
`parse_qs` / `urlencode({k: v[0] ...})`). -/

structure Url where
  scheme : String
  netloc : String
  path : String
  params : String
  query : List (String × String)
  fragment : String
deriving DecidableEq, Repr

/-- First value bound to key `k` (the `parse_qs` dictionary lookup). -/
def getParam : List (String × String) → String → Option String
  | [], _ => none
  | (k', v) :: rest, k => if k' = k then some v else getParam rest k

/-- Dictionary update `query[k] = [v]`: replace the binding of `k` in place,
or append it. -/
def setParam : List (String × String) → String → String → List (String × String)
  | [], k, v => [(k, v)]
  | (k', v') :: rest, k, v =>
    if k' = k then (k, v) :: rest else (k', v') :: setParam rest k v

/-- `utils.get_page_number_from_url`: the value captured by `page=(\d+)`
(the decimal prefix of the `page` query parameter), or `0` when the parameter
is absent or starts with a non-digit. -/
def getPageNumber (u : Url) : Nat :=
  match getParam u.query "page" with
  | some v =>
    let ds := v.data.takeWhile Char.isDigit
    if ds = [] then 0 else digitsVal ds
  | none => 0

/-- Python `path.endswith('/')` on the path component. -/
def endsWithSlash (s : String) : Bool :=
  s.data.getLast? = some '/'

/-- Python `path.rstrip('/')`: drop every trailing `'/'`. -/
def rstripSlash (s : String) : String :=
  String.mk (((s.data.reverse).dropWhile (fun c => c == '/')).reverse)

/-- `CoventryPublicationsCrawler._normalize_query_url`: when a query string is
present, strip a trailing path separator, so `…/path/?page=1` becomes
`…/path?page=1`. -/
def normalizeQueryUrl (u : Url) : Url :=
  if u.query ≠ [] ∧ endsWithSlash u.path then
    { u with path := rstripSlash u.path }
  else u

/-- `query['page'] = [str(n)]` followed by `urlencode`: the page-index
substitution used by the traversal loop for deterministic advancement. -/
def setPage (u : Url) (n : Nat) : Url :=
  { u with query := setParam u.query "page" (natToStr n) }

/-- Rendered URL string (`urllib.parse.urlunparse`); it only feeds the
abstract robots rule set and the audit trail, never page-number parsing. -/
def Url.render (u : Url) : String :=
  let pathPart := u.path ++ (if u.params ≠ "" then ";" ++ u.params else "")
  let base :=
    if u.netloc ≠ "" then
      (if u.scheme ≠ "" then u.scheme ++ "://" else "//") ++ u.netloc ++ pathPart
    else
      (if u.scheme ≠ "" then u.scheme ++ ":" else "") ++ pathPart
  let q :=
    if u.query ≠ [] then
      "?" ++ "&".intercalate (u.query.map (fun kv => kv.1 ++ "=" ++ kv.2))
    else ""
  base ++ q ++ (if u.fragment ≠ "" then "#" ++ u.fragment else "")

/-! ## Records and extraction from `src/parser.py` -/

/-- `config.settings.BASE_URL`. -/
def BASE_URL : String := "https://pureportal.coventry.ac.uk"

/-- A publication record as built by `_extract_publication_data`.  `abstract`
is `none` until `parse_publication_detail` sets the dictionary key. -/
structure Publication where
  title : String
  year : Nat
  authors : String
  publication_link : String
  author_links : String
  page_number : Nat
  abstract : Option String
deriving DecidableEq, Repr

/-- The `h3.title a` element of a result container: cleaned later, raw here.
`href` is `get('href', '')`. -/
structure TitleElem where
  text : String
  href : String
deriving DecidableEq, Repr

/-- An element matched by the `authors` selector.  `isAnchor` tells whether
the element itself is an `a` tag; `nestedHref` is the `href` of a nested
`author_link` element when one exists. -/
structure AuthorElem where
  text : String
  isAnchor : Bool
  href : String
  nestedHref : Option String
deriving DecidableEq, Repr

/-- A `div.result-container` element, abstracted to the selector and regex
results `_extract_publication_data` reads off it.  `textBeforeDate` is the
stripped container text before the first `\d{1,2}\s+\w+\s+\d{4}` date match
(`none` when the pattern does not match), and `dateYearInText` is that match's
captured year group — the container's raw text itself is not modelled. -/
structure Container where
  titleElem : Option TitleElem
  authorElems : List AuthorElem
  textBeforeDate : Option String
  yearElemText : Option String
  dateYearInText : Option String
deriving Repr

/-- The author/author-link accumulation loop of `_extract_publication_data`
(lines 85–111 of `src/parser.py`). -/
def extractAuthorsLists (elems : List AuthorElem) : List String × List String :=
  elems.foldl
    (fun acc e =>
      let names := acc.1
      let links := acc.2
      let name := cleanText e.text
      let names :=
        if name ≠ "" && !names.contains name then names ++ [name] else names
      let link0 :=
        if e.isAnchor then e.href
        else match e.nestedHref with | some h => h | none => ""
      let link :=
        if link0 ≠ "" && !strStartsWith link0 "http" then BASE_URL ++ link0 else link0
      let links :=
        if validateUrl link && !links.contains link then links ++ [link] else links
      (names, links))
    ([], [])

/-- The text-content author fallback (lines 113–145): split the text before
the first date on commas, keep at most three cleaned parts longer than two
characters. -/
def authorsFromText (textBeforeDate : Option String) : List String :=
  match textBeforeDate with
  | none => []
  | some before =>
    if before ≠ "" then
      let pot :=
        (((before.split (fun c => c == ',')).take 3).map cleanText).filter
          (fun p => p ≠ "" && p.length > 2)
      if pot ≠ [] then pot else []
    else []

/-- The year string `_extract_publication_data` arrives at before validation:
the `\b(19|20)\d{2}\b` match of the cleaned year-element text, falling back to
the captured year of the date pattern over the container text. -/
def computeYearString (c : Container) : String :=
  let fromElem :=
    match c.yearElemText with
    | some t => extractYearFromText (cleanText t)
    | none => ""
  if fromElem = "" then
    match c.dateYearInText with
    | some y => y
    | none => ""
  else fromElem

/-- The base-URL resolution of the title link (lines 81–83): a non-empty link
not starting with `http` is made absolute with `BASE_URL`. -/
def resolveLink (href : String) : String :=
  if href ≠ "" && !strStartsWith href "http" then BASE_URL ++ href else href

/-- `PublicationParser._extract_publication_data`: yields `none` when the
container has no title element, when the year string is empty, non-numeric or
outside `[1900, 2030]`, when the resolved publication link is empty or does
not start with `http`, or when the cleaned title is empty. -/
def extractPublicationData (c : Container) (page_number : Nat) : Option Publication :=
  match c.titleElem with
  | none => none
  | some te =>
    let title := cleanText te.text
    let publication_link := resolveLink te.href
    let base := extractAuthorsLists c.authorElems
    let authors :=
      if base.1 = [] then authorsFromText c.textBeforeDate else base.1
    let author_links := base.2
    let year := computeYearString c
    if year = "" || !pyIsDigit year then none
    else
      let year_int := digitsVal year.data
      if year_int < 1900 || year_int > 2030 then none
      else if publication_link = "" || !strStartsWith publication_link "http" then none
      else
        let pub : Publication :=
          { title := title, year := year_int, authors := formatAuthors authors,
            publication_link := publication_link,
            author_links := formatAuthorLinks author_links,
            page_number := page_number, abstract := none }
        if pub.title = "" then none else some pub

/-- `PublicationParser.parse_publications_page`: extract every container of
the page, dropping the ones the extractor rejects.  `page_number` is
`get_page_number_from_url(page_url)`. -/
def parsePublicationsPage (containers : List Container) (page_number : Nat) :
    List Publication :=
  containers.filterMap (fun c => extractPublicationData c page_number)

/-! ## Pagination discovery (`PublicationParser.get_total_pages`) -/

/-- One `nav` element of the page, abstracted to what `get_total_pages` reads
off it: whether its text contains `Next`, the two groups of a
`(\d+)\.\.(\d+).*Next` match when one exists, and every `\b(\d+)\b` number of
the text. -/
structure NavBlock where
  containsNext : Bool
  rangePattern : Option (Nat × Nat)
  numbers : List Nat
deriving DecidableEq, Repr

/-- The pagination content of a rendered page: its `nav` elements and the
`page=(\d+)` numbers of the `ul.pager li a` hrefs. -/
structure Pagination where
  navs : List NavBlock
  pagerPresent : Bool
  pagerPageNums : List Nat
deriving DecidableEq, Repr

/-- The per-`nav` step of `get_total_pages`: the `first..last‹Next›` pattern
gives `last + 1`; otherwise the highest number `≤ 100` in the text gives
`max + 1`; otherwise this `nav` decides nothing. -/
def navTotal (nb : NavBlock) : Option Nat :=
  if nb.containsNext then
    match nb.rangePattern with
    | some r => some (r.2 + 1)
    | none =>
      let valid := nb.numbers.filter (fun n => n ≤ 100)
      if valid ≠ [] then some (valid.foldl Nat.max 0 + 1) else none
  else none

/-- `PublicationParser.get_total_pages`: first deciding `nav`, then the
`ul.pager` hrefs (`max + 1`), then the fallback total of `1`. -/
def getTotalPages (p : Pagination) : Nat :=
  match (p.navs.filterMap navTotal).head? with
  | some t => t
  | none =>
    if !p.pagerPresent then 1
    else if p.pagerPageNums ≠ [] then p.pagerPageNums.foldl Nat.max 0 + 1
    else 1

/-! ## Detail enrichment -/

/-- A rendered detail page, abstracted to what `parse_publication_detail`
extracts from it: `_extract_abstract`'s result (`""` when nothing was found)
and `_extract_detailed_authors`'s result. -/
structure DetailPage where
  abstractText : String
  detailedAuthors : List String
  detailedAuthorLinks : List String
deriving DecidableEq, Repr

/-- `PublicationParser.parse_publication_detail`: always sets the `abstract`
key; replaces authors and author links only when detailed authors were
found. -/
def parsePublicationDetail (d : DetailPage) (basic : Publication) : Publication :=
  let e := { basic with abstract := some d.abstractText }
  if d.detailedAuthors ≠ [] then
    { e with authors := formatAuthors d.detailedAuthors,
             author_links := formatAuthorLinks d.detailedAuthorLinks }
  else e

/-- Outcome of one attempt of `crawl_publication_details`: a Selenium timeout,
a WebDriver error, any other exception, or a successfully rendered detail
page. -/
inductive DetailAttempt where
  | timeout
  | driverError
  | otherError
  | success (d : DetailPage)

/-- The `for attempt in range(MAX_RETRIES)` retry loop of
`crawl_publication_details` (lines 452–536 of `src/crawler.py`): `remaining`
is the number of loop iterations left (`maxRetries - attempt`).  Every failure
path returns the basic record. -/
def detailLoop (att : Nat → DetailAttempt) (maxRetries : Nat) (basic : Publication) :
    Nat → Nat → Publication
  | 0, _ => basic
  | remaining + 1, attempt =>
    match att attempt with
    | .success d => parsePublicationDetail d basic
    | .timeout =>
      if attempt < maxRetries - 1 then
        detailLoop att maxRetries basic remaining (attempt + 1)
      else basic
    | .driverError =>
      if attempt < maxRetries - 1 then
        detailLoop att maxRetries basic remaining (attempt + 1)
      else basic
    | .otherError => basic

/-! ## Configuration

`MAX_RETRIES` and `MAX_CONSECUTIVE_ERRORS` are `3` and `5` in
`config/settings.py`; `API_RETRIES`, `API_POST_EACH_DETAIL`, `RESPECT_ROBOTS`
and `ROBOTS_FALLBACK_CRAWL_DELAY` are imported by the sources but their
definitions are not part of the provided tree, so all of them are carried in a
configuration record. -/

structure Config where
  maxRetries : Nat
  maxConsecutiveErrors : Nat
  apiRetries : Nat
  apiPostEachDetail : Bool
  respectRobots : Bool
  fallbackDelay : ℚ

/-! ## Robots policy (`utils.RobotsPolicy`) -/

/-- `RobotsPolicy` state: `_fetched`, `_unavailable`, `_crawl_delay`, and the
parsed rule set (`parser.can_fetch(user_agent, ·)`) as an abstract
predicate. -/
structure RobotsState where
  fetched : Bool
  unavailable : Bool
  crawlDelay : Option ℚ
  rules : String → Bool

/-- `RobotsPolicy.fetch`: no direct HTTP is performed; the state is marked
fetched-and-unavailable (the Selenium loader `_ensure_robots_loaded` runs
before the traversal loop and is modelled by the initial state). -/
def RobotsState.fetch (s : RobotsState) : RobotsState :=
  { s with fetched := true, unavailable := true }

/-- `RobotsPolicy.can_fetch`: `true` when enforcement is off or the policy is
unavailable; otherwise the parsed rules decide.  Returns the possibly updated
state (a first use triggers `fetch`). -/
def canFetch (cfg : Config) (s : RobotsState) (url : String) : Bool × RobotsState :=
  if !cfg.respectRobots then (true, s)
  else
    let s := if !s.fetched then s.fetch else s
    if s.unavailable then (true, s)
    else (s.rules url, s)

/-- `RobotsPolicy.crawl_delay_seconds`: the parsed delay, or the configured
fallback when enforcement is off, the policy is unavailable, or no delay was
parsed. -/
def crawlDelaySeconds (cfg : Config) (s : RobotsState) : ℚ × RobotsState :=
  if !cfg.respectRobots then (cfg.fallbackDelay, s)
  else
    let s := if !s.fetched then s.fetch else s
    if s.unavailable then (cfg.fallbackDelay, s)
    else
      (match s.crawlDelay with
       | some d => d
       | none => cfg.fallbackDelay, s)

/-- `CoventryPublicationsCrawler._respect_robots_or_skip`: `true` without
consulting the policy when enforcement is off. -/
def respectRobotsOrSkip (cfg : Config) (s : RobotsState) (url : String) :
    Bool × RobotsState :=
  if !cfg.respectRobots then (true, s) else canFetch cfg s url

/-! ## Deduplication and per-record processing
(`CoventryPublicationsCrawler.process_publications_with_details`) -/

/-- Modelled from the spec: `is_publication_exists` is imported from
`src.utils` by `crawler.py` but its definition is not part of the provided
sources.  Per the spec (§4.3), the deduplication cache is the set of known
record titles, seeded once, and the check is membership of the record's title
in that set. -/
def isPublicationExists (cache : List String) (title : String) : Bool :=
  cache.contains title

/-- One skipped-record log entry (`self.skipped_records`). -/
structure SkipRecord where
  reason : String
  page_number : Nat
  index_on_page : Nat
  title : String
  publication_link : String
deriving DecidableEq, Repr

/-- `crawl_publication_details`: guard on a usable `http` link, guard on
robots, then the bounded retry loop.  Every path returns a record (the Python
`Optional` return is never `None`); `allowed` is the robots check, pure here
because the policy is already fetched once the traversal loop runs. -/
def crawlPublicationDetails (cfg : Config) (allowed : String → Bool)
    (att : Nat → DetailAttempt) (url : String) (basic : Publication) : Publication :=
  if url = "" || !strStartsWith url "http" then basic
  else if !allowed url then basic
  else detailLoop att cfg.maxRetries basic cfg.maxRetries 0

/-- Result of `process_publications_with_details`: the processed (new)
records in listing order, the skipped-record entries in listing order, and an
audit trail of the 0-based indices for which `crawl_publication_details` was
invoked and of the indices posted individually in test mode. -/
structure ProcOut where
  processed : List Publication
  skipped : List SkipRecord
  enriched : List Nat
  testSent : List Nat
deriving Repr

/-- The `for i, publication in enumerate(publications)` body of
`process_publications_with_details` (lines 335–400 of `src/crawler.py`):
missing title → `missing_title` skip entry; cached title → `already_exists`
skip entry (no enrichment, no delivery); otherwise enrich when the link is a
non-empty `http` link, else keep the basic record.  `i` is the 0-based index
of the head of the list; log entries record `i + 1`. -/
def processPublicationsAux (cfg : Config) (cache : List String)
    (allowed : String → Bool) (detail : Nat → Nat → DetailAttempt) (page : Nat) :
    List Publication → Nat → ProcOut
  | [], _ => ⟨[], [], [], []⟩
  | pub :: rest, i =>
    let r := processPublicationsAux cfg cache allowed detail page rest (i + 1)
    if pub.title = "" then
      { r with skipped := ⟨"missing_title", page, i + 1, "", pub.publication_link⟩ :: r.skipped }
    else if isPublicationExists cache pub.title then
      { r with skipped := ⟨"already_exists", page, i + 1, pub.title, pub.publication_link⟩ :: r.skipped }
    else if pub.publication_link ≠ "" && strStartsWith pub.publication_link "http" then
      let e := crawlPublicationDetails cfg allowed (detail i) pub.publication_link pub
      { processed := e :: r.processed, skipped := r.skipped,
        enriched := i :: r.enriched,
        testSent := if cfg.apiPostEachDetail then i :: r.testSent else r.testSent }
    else
      { r with processed := pub :: r.processed }

/-- `process_publications_with_details` (the loop starts at index 0). -/
def processPublications (cfg : Config) (cache : List String)
    (allowed : String → Bool) (detail : Nat → Nat → DetailAttempt) (page : Nat)
    (pubs : List Publication) : ProcOut :=
  processPublicationsAux cfg cache allowed detail page pubs 0

/-! ## Delivery (`utils.send_to_api` and the per-item fallback) -/

/-- A record as posted to the API: `send_to_api` strips the provenance-only
`page_number` key from each publication. -/
structure ApiRecord where
  title : String
  year : Nat
  authors : String
  publication_link : String
  author_links : String
  abstract : Option String
deriving DecidableEq, Repr

/-- The `{k: v for k, v in item.items() if k != "page_number"}` filtering of
`send_to_api`. -/
def stripPageNumber (p : Publication) : ApiRecord :=
  ⟨p.title, p.year, p.authors, p.publication_link, p.author_links, p.abstract⟩

/-- The `for attempt in range(API_RETRIES)` loop of `send_to_api`: `att a`
tells whether attempt `a` got a 200 response (timeouts, connection errors and
non-200 statuses are all non-success).  Returns the overall outcome and the
number of attempts made. -/
def sendToApiLoop (att : Nat → Bool) (retries : Nat) : Nat → Nat → Bool × Nat
  | 0, attempt => (false, attempt)
  | remaining + 1, attempt =>
    if att attempt then (true, attempt + 1)
    else sendToApiLoop att retries remaining (attempt + 1)

/-- `utils.send_to_api`: an empty batch returns `False` before any attempt;
otherwise the payload (with `page_number` stripped) is posted with up to
`retries` attempts. -/
def sendToApi (att : Nat → Bool) (retries : Nat) (data : List Publication) :
    Bool × Nat :=
  if data = [] then (false, 0)
  else
    let _payload := data.map stripPageNumber
    sendToApiLoop att retries retries 0

/-- Outcome of one `send_single_to_api` call in the per-item fallback:
success, a falsy return, or a raised exception.  (`send_single_to_api` itself
is imported from `src.utils` but missing from the provided sources; its
observable outcomes are what the fallback logic branches on.) -/
inductive SingleResult where
  | ok
  | failed
  | raised
deriving DecidableEq, Repr

/-- The per-item retry fallback of `crawl_all_pages` (lines 670–691 of
`src/crawler.py`), run when a page's batch delivery failed: each record is
sent individually (`idx` enumerates from 1); a falsy result logs
`api_send_failed` and an exception logs `api_send_exception`.  Returns the
skip entries and the audit of the indices sent. -/
def batchFallback (singleSend : Nat → SingleResult) (page : Nat) :
    List Publication → Nat → List SkipRecord × List Nat
  | [], _ => ([], [])
  | pub :: rest, idx =>
    let r := batchFallback singleSend page rest (idx + 1)
    match singleSend idx with
    | .ok => (r.1, idx :: r.2)
    | .failed =>
      (⟨"api_send_failed", page, idx, pub.title, pub.publication_link⟩ :: r.1,
       idx :: r.2)
    | .raised =>
      (⟨"api_send_exception", page, idx, pub.title, pub.publication_link⟩ :: r.1,
       idx :: r.2)

/-! ## The traversal loop (`CoventryPublicationsCrawler.crawl_all_pages`) -/

/-- Everything one iteration of the traversal loop observes about the page at
a given index: the `navigate_to_page` outcome (render + validation), the
result containers, the pagination markup, the batch-delivery attempt
outcomes, the per-item fallback outcomes, and the per-record detail-crawl
attempt outcomes. -/
structure PageSpec where
  navSuccess : Bool
  containers : List Container
  pagination : Pagination
  batchAttempt : Nat → Bool
  singleSend : Nat → SingleResult
  detail : Nat → Nat → DetailAttempt

/-- The mutable fields of `CoventryPublicationsCrawler` touched by the loop,
plus two audit trails: the page indices passed to `navigate_to_page` and the
URLs skipped because robots disallowed them. -/
structure CrawlState where
  all_publications : List Publication
  consecutive_errors : Nat
  current_page : Nat
  skipped_records : List SkipRecord
  robots : RobotsState
  navigatedPages : List Nat
  robotsSkippedUrls : List String

/-- The loop's local variables: the state, `current_url` (`none` once the
loop is to stop) and the lazily discovered `total_pages`. -/
structure LoopState where
  st : CrawlState
  currentUrl : Option Url
  totalPages : Option Nat

/-- One iteration of the `while current_url` loop of `crawl_all_pages`
(lines 586–754 of `src/crawler.py`), given `current_url = some u`:
crawl-delay, robots check (skip branch, lines 592–611, advances the page index
without normalizing), navigation (failure branch, lines 616–641, increments
the consecutive-error counter and breaks at the ceiling), then extraction,
processing, batch delivery with per-item fallback, one-time total-page
discovery, and the deterministic next-cursor computation (lines 708–727). -/
def crawlStep (cfg : Config) (env : Nat → PageSpec) (cache : List String)
    (u : Url) (s : LoopState) : LoopState :=
  let rs0 := (crawlDelaySeconds cfg s.st.robots).2
  let chk := respectRobotsOrSkip cfg rs0 u.render
  let rs1 := chk.2
  if !chk.1 then
    let idx := getPageNumber u
    let nextUrl : Option Url :=
      match s.totalPages with
      | some n => if n ≤ idx + 1 then none else some (setPage u (idx + 1))
      | none => some (setPage u (idx + 1))
    { st := { s.st with
                robots := rs1
                current_page := s.st.current_page + 1
                robotsSkippedUrls := s.st.robotsSkippedUrls ++ [u.render] }
      currentUrl := nextUrl
      totalPages := s.totalPages }
  else
    let u1 := normalizeQueryUrl u
    let idx := getPageNumber u1
    let navigated := s.st.navigatedPages ++ [idx]
    if !(env idx).navSuccess then
      let errs := s.st.consecutive_errors + 1
      if cfg.maxConsecutiveErrors ≤ errs then
        { st := { s.st with
                    robots := rs1
                    consecutive_errors := errs
                    navigatedPages := navigated }
          currentUrl := none
          totalPages := s.totalPages }
      else
        let nextUrl : Option Url :=
          match s.totalPages with
          | some n =>
            if n ≤ idx + 1 then none
            else some (normalizeQueryUrl (setPage u1 (idx + 1)))
          | none => some (normalizeQueryUrl (setPage u1 (idx + 1)))
        { st := { s.st with
                    robots := rs1
                    consecutive_errors := errs
                    current_page := s.st.current_page + 1
                    navigatedPages := navigated }
          currentUrl := nextUrl
          totalPages := s.totalPages }
    else
      let allowedSnap : String → Bool := fun url => (respectRobotsOrSkip cfg rs1 url).1
      let pubs := parsePublicationsPage (env idx).containers idx
      let pr := processPublications cfg cache allowedSnap (env idx).detail
        s.st.current_page pubs
      -- `if publications:` (line 646): an empty page contributes nothing;
      -- otherwise the processed records and skip entries are appended, and a
      -- failed batch delivery (batch mode only) appends the per-item fallback
      -- entries after them.
      let newPubs := if pubs.isEmpty then [] else pr.processed
      let fallbackSkips :=
        if pubs.isEmpty then []
        else if !pr.processed.isEmpty && !cfg.apiPostEachDetail then
          if (sendToApi (env idx).batchAttempt cfg.apiRetries pr.processed).1 then []
          else (batchFallback (env idx).singleSend s.st.current_page pr.processed 1).1
        else []
      let newSkips := (if pubs.isEmpty then [] else pr.skipped) ++ fallbackSkips
      let total1 : Option Nat :=
        match s.totalPages with
        | some n => some n
        | none =>
          let d := getTotalPages (env idx).pagination
          if 0 < d then some d else none
      let nextUrl : Option Url :=
        match total1 with
        | some n =>
          if n ≤ idx + 1 then none
          else some (normalizeQueryUrl (setPage u1 (idx + 1)))
        | none => some (normalizeQueryUrl (setPage u1 (idx + 1)))
      { st := { all_publications := s.st.all_publications ++ newPubs
                consecutive_errors := 0
                current_page := s.st.current_page + 1
                skipped_records := s.st.skipped_records ++ newSkips
                robots := rs1
                navigatedPages := navigated
                robotsSkippedUrls := s.st.robotsSkippedUrls }
        currentUrl := nextUrl
        totalPages := total1 }

/-- The `while current_url` loop, bounded by `fuel` iterations (the Python
loop is unbounded; every theorem quantifies over a sufficient `fuel`). -/
def crawlLoop (cfg : Config) (env : Nat → PageSpec) (cache : List String) :
    Nat → LoopState → LoopState
  | 0, s => s
  | fuel + 1, s =>
    match s.currentUrl with
    | none => s
    | some u => crawlLoop cfg env cache fuel (crawlStep cfg env cache u s)

/-- Fresh crawler state (`__init__`), with the robots state as left by the
one-time `_ensure_robots_loaded`. -/
def initialCrawlState (rs : RobotsState) : CrawlState :=
  ⟨[], 0, 0, [], rs, [], []⟩

/-- `crawl_all_pages`: start from the normalized seed URL with no total-page
count discovered yet. -/
def crawlAllPages (cfg : Config) (env : Nat → PageSpec) (cache : List String)
    (rs : RobotsState) (seed : Url) (fuel : Nat) : LoopState :=
  crawlLoop cfg env cache fuel
    ⟨initialCrawlState rs, some (normalizeQueryUrl seed), none⟩

/-! ## Statistics (`utils.get_crawling_statistics`) -/

structure CrawlStats where
  total_publications : Nat
  unique_authors : Nat
  year_range : String
  pages_crawled : Nat
deriving DecidableEq, Repr

/-- `utils.get_crawling_statistics`. -/
def getCrawlingStatistics (data : List Publication) : CrawlStats :=
  if data.isEmpty then ⟨0, 0, "", 0⟩
  else
    let allAuthors :=
      data.flatMap (fun p => ((p.authors.splitOn ", ").map pyStrip).filter
        (fun a => a ≠ ""))
    let years := (data.map (fun p => p.year)).filter (fun y => y ≠ 0)
    let yearRange :=
      match years with
      | [] => ""
      | y :: ys =>
        toString (ys.foldl Nat.min y) ++ " - " ++ toString (ys.foldl Nat.max y)
    { total_publications := data.length,
      unique_authors := allAuthors.dedup.length,
      year_range := yearRange,
      pages_crawled := (data.map (fun p => p.page_number)).dedup.length }

/-- The seed URL of `config/settings.py`, in parsed form. -/
def seedUrl : Url :=
  { scheme := "https", netloc := "pureportal.coventry.ac.uk",
    path := "/en/organisations/fbl-school-of-economics-finance-and-accounting/publications/",
    params := "", query := [("page", "0")], fragment := "" }

/-! ## Helper lemmas: decimal strings -/

lemma digitChar_isDigit {d : Nat} (h : d < 10) :
    (Nat.digitChar d).isDigit = true := by
  interval_cases d <;> decide

lemma digitChar_toNat {d : Nat} (h : d < 10) :
    (Nat.digitChar d).toNat - 48 = d := by
  interval_cases d <;> decide

lemma digitsVal_append_digit (l : List Char) (c : Char) :
    digitsVal (l ++ [c]) = digitsVal l * 10 + (c.toNat - 48) := by
  simp [digitsVal, List.foldl_append]

lemma natToStrAux_val : ∀ fuel n, n ≤ fuel → digitsVal (natToStrAux fuel n) = n := by
  intro fuel
  induction fuel with
  | zero =>
    intro n hn
    interval_cases n
    simp [natToStrAux, digitsVal]
  | succ fuel ih =>
    intro n hn
    by_cases h0 : n = 0
    · simp [natToStrAux, h0, digitsVal]
    · have hdiv : n / 10 ≤ fuel := by omega
      rw [natToStrAux, if_neg h0, digitsVal_append_digit, ih _ hdiv,
        digitChar_toNat (Nat.mod_lt n (by omega))]
      omega

lemma natToStrAux_digits : ∀ fuel n, ∀ c ∈ natToStrAux fuel n, c.isDigit = true := by
  intro fuel
  induction fuel with
  | zero => intro n c hc; simp [natToStrAux] at hc
  | succ fuel ih =>
    intro n c hc
    by_cases h0 : n = 0
    · simp [natToStrAux, h0] at hc
    · rw [natToStrAux, if_neg h0] at hc
      rcases List.mem_append.1 hc with h | h
      · exact ih _ c h
      · rcases List.mem_singleton.1 h with rfl
        exact digitChar_isDigit (Nat.mod_lt n (by omega))

lemma natToStrAux_ne_nil {fuel n : Nat} (h1 : 1 ≤ n) (h2 : n ≤ fuel) :
    natToStrAux fuel n ≠ [] := by
  cases fuel with
  | zero => omega
  | succ fuel =>
    rw [natToStrAux, if_neg (by omega)]
    simp

lemma natToStr_data_digits (n : Nat) : ∀ c ∈ (natToStr n).data, c.isDigit = true := by
  by_cases h0 : n = 0
  · subst h0; intro c hc; simp [natToStr] at hc; subst hc; decide
  · rw [natToStr, if_neg h0]
    exact natToStrAux_digits n n

lemma natToStr_data_ne_nil (n : Nat) : (natToStr n).data ≠ [] := by
  by_cases h0 : n = 0
  · subst h0; simp [natToStr]
  · rw [natToStr, if_neg h0]
    exact natToStrAux_ne_nil (by omega) le_rfl

lemma digitsVal_natToStr (n : Nat) : digitsVal (natToStr n).data = n := by
  by_cases h0 : n = 0
  · subst h0; simp [natToStr, digitsVal]
  · rw [natToStr, if_neg h0]
    exact natToStrAux_val n n le_rfl

/-! ## Helper lemmas: URL parameters and normalization -/

lemma getParam_setParam (q : List (String × String)) (k v : String) :
    getParam (setParam q k v) k = some v := by
  induction q with
  | nil => simp [setParam, getParam]
  | cons kv rest ih =>
    by_cases h : kv.1 = k
    · simp [setParam, getParam, h]
    · cases kv with
      | mk k' v' =>
        simp only at h
        simp [setParam, getParam, h, ih]

lemma getPageNumber_setPage (u : Url) (n : Nat) :
    getPageNumber (setPage u n) = n := by
  rw [getPageNumber]
  show (match getParam (setParam u.query "page" (natToStr n)) "page" with
    | some v =>
      let ds := v.data.takeWhile Char.isDigit
      if ds = [] then 0 else digitsVal ds
    | none => 0) = n
  rw [getParam_setParam]
  have hall : (natToStr n).data.takeWhile Char.isDigit = (natToStr n).data :=
    List.takeWhile_eq_self_iff.2 (natToStr_data_digits n)
  simp only [hall]
  rw [if_neg (natToStr_data_ne_nil n)]
  exact digitsVal_natToStr n

lemma normalizeQueryUrl_query (u : Url) :
    (normalizeQueryUrl u).query = u.query := by
  rw [normalizeQueryUrl]
  split <;> rfl

lemma getPageNumber_normalize (u : Url) :
    getPageNumber (normalizeQueryUrl u) = getPageNumber u := by
  rw [getPageNumber, getPageNumber, normalizeQueryUrl_query]

lemma head?_dropWhile_not {p : Char → Bool} {l : List Char} {a : Char}
    (h : (l.dropWhile p).head? = some a) : p a = false := by
  induction l with
  | nil => simp [List.dropWhile] at h
  | cons c rest ih =>
    rw [List.dropWhile_cons] at h
    by_cases hp : p c
    · rw [if_pos hp] at h; exact ih h
    · rw [if_neg hp] at h
      simp at h
      subst h
      simpa using hp

lemma dropWhile_idem (p : Char → Bool) (l : List Char) :
    (l.dropWhile p).dropWhile p = l.dropWhile p := by
  induction l with
  | nil => simp
  | cons c rest ih =>
    rw [List.dropWhile_cons]
    by_cases hp : p c
    · rw [if_pos hp]; exact ih
    · rw [if_neg hp, List.dropWhile_cons, if_neg hp]

lemma endsWithSlash_rstripSlash (s : String) :
    endsWithSlash (rstripSlash s) = false := by
  have hdata : (rstripSlash s).data
      = ((s.data.reverse).dropWhile (fun c => c == '/')).reverse := rfl
  rw [endsWithSlash, hdata, List.getLast?_reverse]
  cases h : ((s.data.reverse).dropWhile (fun c => c == '/')).head? with
  | none => simp
  | some a =>
    have ha : a ≠ '/' := by simpa using head?_dropWhile_not h
    simp [ha]

lemma rstripSlash_rstripSlash (s : String) :
    rstripSlash (rstripSlash s) = rstripSlash s := by
  have hdata : (rstripSlash s).data
      = ((s.data.reverse).dropWhile (fun c => c == '/')).reverse := rfl
  rw [rstripSlash, hdata, List.reverse_reverse, dropWhile_idem]
  rfl

lemma normalizeQueryUrl_idem (u : Url) :
    normalizeQueryUrl (normalizeQueryUrl u) = normalizeQueryUrl u := by
  by_cases h : u.query ≠ [] ∧ endsWithSlash u.path
  · have hv : normalizeQueryUrl u = { u with path := rstripSlash u.path } := by
      rw [normalizeQueryUrl, if_pos h]
    rw [hv, normalizeQueryUrl, if_neg]
    rintro ⟨-, h2⟩
    simp [endsWithSlash_rstripSlash] at h2
  · have hv : normalizeQueryUrl u = u := by rw [normalizeQueryUrl, if_neg h]
    rw [hv]
    exact hv

lemma endsWithSlash_append_slash (s : String) :
    endsWithSlash (s ++ "/") = true := by
  have hdata : (s ++ "/").data = s.data ++ ['/'] := rfl
  rw [endsWithSlash, hdata]
  simp

lemma rstripSlash_append_slash (s : String) :
    rstripSlash (s ++ "/") = rstripSlash s := by
  have hdata : (s ++ "/").data = s.data ++ ['/'] := rfl
  rw [rstripSlash, rstripSlash, hdata, List.reverse_append]
  rw [show (['/'].reverse ++ s.data.reverse).dropWhile (fun c => c == '/')
      = (s.data.reverse).dropWhile (fun c => c == '/') by
    simp [List.dropWhile_cons]]

lemma rstripSlash_of_not_ends {s : String} (h : endsWithSlash s = false) :
    rstripSlash s = s := by
  cases s with
  | mk data =>
    have hd : (String.mk data).data = data := rfl
    rw [rstripSlash, hd]
    cases hrev : data.reverse with
    | nil =>
      have h0 : data = [] := by simpa using congrArg List.reverse hrev
      subst h0
      rfl
    | cons c t =>
      have hlast : data.getLast? = some c := by
        rw [← List.head?_reverse, hrev]
        rfl
      have hc : (c == '/') = false := by
        rw [Bool.eq_false_iff]
        intro hc
        simp only [beq_iff_eq] at hc
        subst hc
        rw [endsWithSlash, hd, hlast] at h
        simp at h
      have hstep : List.dropWhile (fun x => x == '/') (c :: t) = c :: t := by
        simp [List.dropWhile_cons, hc]
      rw [hstep, ← hrev, List.reverse_reverse]

/-! ## Helper lemmas: pagination discovery -/

lemma navTotal_pos {nb : NavBlock} {x : Nat} (h : navTotal nb = some x) : 1 ≤ x := by
  rw [navTotal] at h
  by_cases hn : nb.containsNext
  · rw [if_pos hn] at h
    cases hr : nb.rangePattern with
    | some r => rw [hr] at h; simp at h; omega
    | none =>
      rw [hr] at h
      by_cases hv : nb.numbers.filter (fun n => n ≤ 100) ≠ []
      · rw [if_pos hv] at h; simp at h; omega
      · rw [if_neg hv] at h; simp at h
  · rw [if_neg hn] at h; simp at h

lemma one_le_getTotalPages (p : Pagination) : 1 ≤ getTotalPages p := by
  rw [getTotalPages]
  cases hl : p.navs.filterMap navTotal with
  | nil =>
    simp only [List.head?_nil]
    by_cases hp : (!p.pagerPresent) = true
    · rw [if_pos hp]
    · by_cases hn : p.pagerPageNums ≠ []
      · rw [if_neg hp, if_pos hn]
        omega
      · rw [if_neg hp, if_neg hn]
  | cons a rest =>
    simp only [List.head?_cons]
    have ha : a ∈ p.navs.filterMap navTotal := by rw [hl]; exact List.mem_cons_self a rest
    rcases List.mem_filterMap.1 ha with ⟨nb, -, hnb⟩
    exact navTotal_pos hnb

/-! ## Helper lemmas: detail enrichment -/

lemma detailLoop_all_fail (att : Nat → DetailAttempt) (maxRetries : Nat)
    (basic : Publication) :
    ∀ remaining attempt, attempt + remaining ≤ maxRetries →
      (∀ a, a < maxRetries → att a = .timeout ∨ att a = .driverError) →
      detailLoop att maxRetries basic remaining attempt = basic := by
  intro remaining
  induction remaining with
  | zero => intro attempt _ _; rfl
  | succ r ih =>
    intro attempt hb hf
    rcases hf attempt (by omega) with h | h <;>
      · rw [detailLoop, h]
        by_cases hlt : attempt < maxRetries - 1
        · rw [if_pos hlt]
          exact ih (attempt + 1) (by omega) hf
        · rw [if_neg hlt]

lemma startsWith_http_ne_empty {url : String} (h : strStartsWith url "http" = true) :
    url ≠ "" := by
  intro h0
  subst h0
  exact absurd h (by decide)

lemma crawlPublicationDetails_all_fail (cfg : Config) (allowed : String → Bool)
    (att : Nat → DetailAttempt) (url : String) (basic : Publication)
    (hs : strStartsWith url "http" = true) (ha : allowed url = true)
    (hf : ∀ a, a < cfg.maxRetries → att a = .timeout ∨ att a = .driverError) :
    crawlPublicationDetails cfg allowed att url basic = basic := by
  rw [crawlPublicationDetails, if_neg, if_neg]
  · exact detailLoop_all_fail att cfg.maxRetries basic cfg.maxRetries 0 (by omega) hf
  · simp [ha]
  · simp [hs, startsWith_http_ne_empty hs]

lemma parsePublicationDetail_fields (d : DetailPage) (b : Publication) :
    (parsePublicationDetail d b).title = b.title
    ∧ (parsePublicationDetail d b).year = b.year
    ∧ (parsePublicationDetail d b).publication_link = b.publication_link := by
  rw [parsePublicationDetail]
  by_cases h : d.detailedAuthors ≠ []
  · simp [h]
  · simp [h]

lemma detailLoop_fields (att : Nat → DetailAttempt) (maxRetries : Nat)
    (b : Publication) :
    ∀ remaining attempt,
      (detailLoop att maxRetries b remaining attempt).title = b.title
      ∧ (detailLoop att maxRetries b remaining attempt).year = b.year
      ∧ (detailLoop att maxRetries b remaining attempt).publication_link
        = b.publication_link := by
  intro remaining
  induction remaining with
  | zero => intro attempt; exact ⟨rfl, rfl, rfl⟩
  | succ r ih =>
    intro attempt
    rw [detailLoop]
    cases att attempt with
    | success d => exact parsePublicationDetail_fields d b
    | timeout =>
      by_cases hlt : attempt < maxRetries - 1
      · rw [if_pos hlt]; exact ih (attempt + 1)
      · rw [if_neg hlt]; exact ⟨rfl, rfl, rfl⟩
    | driverError =>
      by_cases hlt : attempt < maxRetries - 1
      · rw [if_pos hlt]; exact ih (attempt + 1)
      · rw [if_neg hlt]; exact ⟨rfl, rfl, rfl⟩
    | otherError => exact ⟨rfl, rfl, rfl⟩

lemma crawlPublicationDetails_fields (cfg : Config) (allowed : String → Bool)
    (att : Nat → DetailAttempt) (url : String) (b : Publication) :
    (crawlPublicationDetails cfg allowed att url b).title = b.title
    ∧ (crawlPublicationDetails cfg allowed att url b).year = b.year
    ∧ (crawlPublicationDetails cfg allowed att url b).publication_link
      = b.publication_link := by
  rw [crawlPublicationDetails]
  by_cases h1 : (url = "" || !strStartsWith url "http") = true
  · rw [if_pos h1]; exact ⟨rfl, rfl, rfl⟩
  · rw [if_neg h1]
    by_cases h2 : (!allowed url) = true
    · rw [if_pos h2]; exact ⟨rfl, rfl, rfl⟩
    · rw [if_neg h2]; exact detailLoop_fields att cfg.maxRetries b cfg.maxRetries 0

/-! ## Helper lemmas: record validity -/

/-- The invariant the extraction gates establish: year in `[1900, 2030]` and a
publication link starting with `http`. -/
def ValidRecord (p : Publication) : Prop :=
  1900 ≤ p.year ∧ p.year ≤ 2030 ∧ strStartsWith p.publication_link "http" = true

lemma extractPublicationData_valid {c : Container} {k : Nat} {r : Publication}
    (hr : extractPublicationData c k = some r) : ValidRecord r := by
  rw [extractPublicationData] at hr
  split at hr
  next => exact absurd hr (by simp)
  next x te hte =>
    by_cases hy : (decide (computeYearString c = "")
        || !pyIsDigit (computeYearString c)) = true
    · rw [if_pos hy] at hr
      exact absurd hr (by simp)
    · rw [if_neg hy] at hr
      by_cases hrange : (decide (digitsVal (computeYearString c).data < 1900)
          || decide (digitsVal (computeYearString c).data > 2030)) = true
      · rw [if_pos hrange] at hr
        exact absurd hr (by simp)
      · rw [if_neg hrange] at hr
        by_cases hlink : (decide (resolveLink te.href = "")
            || !strStartsWith (resolveLink te.href) "http") = true
        · rw [if_pos hlink] at hr
          exact absurd hr (by simp)
        · rw [if_neg hlink] at hr
          by_cases htitle : (cleanText te.text = "")
          · rw [if_pos htitle] at hr
            exact absurd hr (by simp)
          · rw [if_neg htitle] at hr
            have hr' := Option.some.inj hr
            subst hr'
            simp only [Bool.or_eq_true, not_or, Bool.not_eq_true, decide_eq_true_eq]
              at hrange hlink
            refine ⟨?_, ?_, ?_⟩
            · show 1900 ≤ digitsVal (computeYearString c).data
              omega
            · show digitsVal (computeYearString c).data ≤ 2030
              omega
            · show strStartsWith (resolveLink te.href) "http" = true
              simpa using hlink.2

lemma parsePublicationsPage_valid {cs : List Container} {k : Nat} {r : Publication}
    (hr : r ∈ parsePublicationsPage cs k) : ValidRecord r := by
  rcases List.mem_filterMap.1 hr with ⟨c, -, hc⟩
  exact extractPublicationData_valid hc

lemma crawlPublicationDetails_valid {cfg : Config} {allowed : String → Bool}
    {att : Nat → DetailAttempt} {url : String} {b : Publication}
    (hb : ValidRecord b) :
    ValidRecord (crawlPublicationDetails cfg allowed att url b) := by
  rcases crawlPublicationDetails_fields cfg allowed att url b with ⟨-, hy, hl⟩
  exact ⟨hy ▸ hb.1, hy ▸ hb.2.1, hl ▸ hb.2.2⟩

/-! ## Helper lemmas: record processing -/

lemma processPublicationsAux_skipped_mono (cfg : Config) (cache : List String)
    (allowed : String → Bool) (detail : Nat → Nat → DetailAttempt) (page : Nat)
    (pub : Publication) (rest : List Publication) (i0 : Nat) :
    ∀ e ∈ (processPublicationsAux cfg cache allowed detail page rest (i0 + 1)).skipped,
      e ∈ (processPublicationsAux cfg cache allowed detail page (pub :: rest) i0).skipped := by
  intro e he
  simp only [processPublicationsAux]
  split_ifs with h1 h2 h3 h4
  · exact List.mem_cons_of_mem _ he
  · exact List.mem_cons_of_mem _ he
  · exact he
  · exact he
  · exact he

lemma processPublicationsAux_processed_mono (cfg : Config) (cache : List String)
    (allowed : String → Bool) (detail : Nat → Nat → DetailAttempt) (page : Nat)
    (pub : Publication) (rest : List Publication) (i0 : Nat) :
    ∀ q ∈ (processPublicationsAux cfg cache allowed detail page rest (i0 + 1)).processed,
      q ∈ (processPublicationsAux cfg cache allowed detail page (pub :: rest) i0).processed := by
  intro q hq
  simp only [processPublicationsAux]
  split_ifs with h1 h2 h3 h4
  · exact hq
  · exact hq
  · exact List.mem_cons_of_mem _ hq
  · exact List.mem_cons_of_mem _ hq
  · exact List.mem_cons_of_mem _ hq

lemma processPublicationsAux_already (cfg : Config) (cache : List String)
    (allowed : String → Bool) (detail : Nat → Nat → DetailAttempt) (page : Nat) :
    ∀ (pubs : List Publication) (i0 i : Nat) (h : i < pubs.length),
      (pubs.get ⟨i, h⟩).title ≠ "" →
      isPublicationExists cache (pubs.get ⟨i, h⟩).title = true →
      (⟨"already_exists", page, i0 + i + 1, (pubs.get ⟨i, h⟩).title,
        (pubs.get ⟨i, h⟩).publication_link⟩ : SkipRecord)
        ∈ (processPublicationsAux cfg cache allowed detail page pubs i0).skipped := by
  intro pubs
  induction pubs with
  | nil => intro i0 i h; simp at h
  | cons pub rest ih =>
    intro i0 i h ht hc
    cases i with
    | zero =>
      simp only [List.get] at ht hc ⊢
      simp only [processPublicationsAux]
      rw [if_neg ht, if_pos hc]
      exact List.mem_cons_self _ _
    | succ j =>
      simp only [List.get] at ht hc ⊢
      have hmem := ih (i0 + 1) j (Nat.lt_of_succ_lt_succ h) ht hc
      have harith : i0 + 1 + j + 1 = i0 + (j + 1) + 1 := by omega
      rw [harith] at hmem
      exact processPublicationsAux_skipped_mono cfg cache allowed detail page
        pub rest i0 _ hmem

lemma processPublicationsAux_enriched_ge (cfg : Config) (cache : List String)
    (allowed : String → Bool) (detail : Nat → Nat → DetailAttempt) (page : Nat) :
    ∀ (pubs : List Publication) (i0 j : Nat),
      j ∈ (processPublicationsAux cfg cache allowed detail page pubs i0).enriched →
      i0 ≤ j := by
  intro pubs
  induction pubs with
  | nil => intro i0 j hj; simp [processPublicationsAux] at hj
  | cons pub rest ih =>
    intro i0 j hj
    simp only [processPublicationsAux] at hj
    split_ifs at hj with h1 h2 h3 h4
    · have := ih (i0 + 1) j hj; omega
    · have := ih (i0 + 1) j hj; omega
    · have hj' : j = i0 ∨ j ∈ (processPublicationsAux cfg cache allowed detail page
          rest (i0 + 1)).enriched := List.mem_cons.1 hj
      rcases hj' with rfl | hj''
      · omega
      · have := ih (i0 + 1) j hj''; omega
    · have hj' : j = i0 ∨ j ∈ (processPublicationsAux cfg cache allowed detail page
          rest (i0 + 1)).enriched := List.mem_cons.1 hj
      rcases hj' with rfl | hj''
      · omega
      · have := ih (i0 + 1) j hj''; omega
    · have := ih (i0 + 1) j hj; omega

lemma processPublicationsAux_not_enriched (cfg : Config) (cache : List String)
    (allowed : String → Bool) (detail : Nat → Nat → DetailAttempt) (page : Nat) :
    ∀ (pubs : List Publication) (i0 i : Nat) (h : i < pubs.length),
      (pubs.get ⟨i, h⟩).title ≠ "" →
      isPublicationExists cache (pubs.get ⟨i, h⟩).title = true →
      (i0 + i) ∉ (processPublicationsAux cfg cache allowed detail page pubs i0).enriched := by
  intro pubs
  induction pubs with
  | nil => intro i0 i h; simp at h
  | cons pub rest ih =>
    intro i0 i h ht hc hmem
    cases i with
    | zero =>
      simp only [List.get] at ht hc
      simp only [processPublicationsAux] at hmem
      rw [if_neg ht, if_pos hc] at hmem
      have := processPublicationsAux_enriched_ge cfg cache allowed detail page
        rest (i0 + 1) (i0 + 0) hmem
      omega
    | succ j =>
      simp only [List.get] at ht hc
      have harith : i0 + 1 + j = i0 + (j + 1) := by omega
      have hnot := ih (i0 + 1) j (Nat.lt_of_succ_lt_succ h) ht hc
      rw [harith] at hnot
      simp only [processPublicationsAux] at hmem
      split_ifs at hmem with h1 h2 h3 h4
      · exact hnot hmem
      · exact hnot hmem
      · have hmem' : i0 + (j + 1) = i0 ∨ i0 + (j + 1)
            ∈ (processPublicationsAux cfg cache allowed detail page
              rest (i0 + 1)).enriched := List.mem_cons.1 hmem
        rcases hmem' with heq | hmem''
        · omega
        · exact hnot hmem''
      · have hmem' : i0 + (j + 1) = i0 ∨ i0 + (j + 1)
            ∈ (processPublicationsAux cfg cache allowed detail page
              rest (i0 + 1)).enriched := List.mem_cons.1 hmem
        rcases hmem' with heq | hmem''
        · omega
        · exact hnot hmem''
      · exact hnot hmem

lemma processPublicationsAux_processed_not_cached (cfg : Config) (cache : List String)
    (allowed : String → Bool) (detail : Nat → Nat → DetailAttempt) (page : Nat) :
    ∀ (pubs : List Publication) (i0 : Nat) (q : Publication),
      q ∈ (processPublicationsAux cfg cache allowed detail page pubs i0).processed →
      isPublicationExists cache q.title = false := by
  intro pubs
  induction pubs with
  | nil => intro i0 q hq; simp [processPublicationsAux] at hq
  | cons pub rest ih =>
    intro i0 q hq
    have h2f : ∀ h2 : ¬isPublicationExists cache pub.title = true,
        isPublicationExists cache pub.title = false := fun h2 => by simpa using h2
    simp only [processPublicationsAux] at hq
    split_ifs at hq with h1 h2 h3 h4
    · exact ih (i0 + 1) q hq
    · exact ih (i0 + 1) q hq
    · have hq' : q = crawlPublicationDetails cfg allowed (detail i0)
          pub.publication_link pub
          ∨ q ∈ (processPublicationsAux cfg cache allowed detail page
            rest (i0 + 1)).processed := List.mem_cons.1 hq
      rcases hq' with rfl | hq''
      · have htitle := (crawlPublicationDetails_fields cfg allowed (detail i0)
          pub.publication_link pub).1
        rw [htitle]
        exact h2f h2
      · exact ih (i0 + 1) q hq''
    · have hq' : q = crawlPublicationDetails cfg allowed (detail i0)
          pub.publication_link pub
          ∨ q ∈ (processPublicationsAux cfg cache allowed detail page
            rest (i0 + 1)).processed := List.mem_cons.1 hq
      rcases hq' with rfl | hq''
      · have htitle := (crawlPublicationDetails_fields cfg allowed (detail i0)
          pub.publication_link pub).1
        rw [htitle]
        exact h2f h2
      · exact ih (i0 + 1) q hq''
    · have hq' : q = pub ∨ q ∈ (processPublicationsAux cfg cache allowed detail page
          rest (i0 + 1)).processed := List.mem_cons.1 hq
      rcases hq' with rfl | hq''
      · exact h2f h2
      · exact ih (i0 + 1) q hq''

lemma processPublicationsAux_member_enriched (cfg : Config) (cache : List String)
    (allowed : String → Bool) (detail : Nat → Nat → DetailAttempt) (page : Nat) :
    ∀ (pubs : List Publication) (i0 i : Nat) (h : i < pubs.length),
      (pubs.get ⟨i, h⟩).title ≠ "" →
      isPublicationExists cache (pubs.get ⟨i, h⟩).title = false →
      (pubs.get ⟨i, h⟩).publication_link ≠ "" →
      strStartsWith (pubs.get ⟨i, h⟩).publication_link "http" = true →
      crawlPublicationDetails cfg allowed (detail (i0 + i))
          (pubs.get ⟨i, h⟩).publication_link (pubs.get ⟨i, h⟩)
        ∈ (processPublicationsAux cfg cache allowed detail page pubs i0).processed := by
  intro pubs
  induction pubs with
  | nil => intro i0 i h; simp at h
  | cons pub rest ih =>
    intro i0 i h ht hc hl hs
    cases i with
    | zero =>
      simp only [List.get] at ht hc hl hs ⊢
      simp only [processPublicationsAux]
      rw [if_neg ht, if_neg (by simp [hc]), if_pos (by simp [hl, hs])]
      exact List.mem_cons_self _ _
    | succ j =>
      simp only [List.get] at ht hc hl hs ⊢
      have hmem := ih (i0 + 1) j (Nat.lt_of_succ_lt_succ h) ht hc hl hs
      have harith : i0 + 1 + j = i0 + (j + 1) := by omega
      rw [harith] at hmem
      exact processPublicationsAux_processed_mono cfg cache allowed detail page
        pub rest i0 _ hmem

lemma processPublicationsAux_processed_valid (cfg : Config) (cache : List String)
    (allowed : String → Bool) (detail : Nat → Nat → DetailAttempt) (page : Nat) :
    ∀ (pubs : List Publication) (i0 : Nat),
      (∀ p ∈ pubs, ValidRecord p) →
      ∀ q ∈ (processPublicationsAux cfg cache allowed detail page pubs i0).processed,
        ValidRecord q := by
  intro pubs
  induction pubs with
  | nil => intro i0 _ q hq; simp [processPublicationsAux] at hq
  | cons pub rest ih =>
    intro i0 hall q hq
    have hrest : ∀ p ∈ rest, ValidRecord p := fun p hp => hall p (List.mem_cons_of_mem _ hp)
    simp only [processPublicationsAux] at hq
    split_ifs at hq with h1 h2 h3 h4
    · exact ih (i0 + 1) hrest q hq
    · exact ih (i0 + 1) hrest q hq
    · have hq' : q = crawlPublicationDetails cfg allowed (detail i0)
          pub.publication_link pub
          ∨ q ∈ (processPublicationsAux cfg cache allowed detail page
            rest (i0 + 1)).processed := List.mem_cons.1 hq
      rcases hq' with rfl | hq''
      · exact crawlPublicationDetails_valid (hall pub (List.mem_cons_self _ _))
      · exact ih (i0 + 1) hrest q hq''
    · have hq' : q = crawlPublicationDetails cfg allowed (detail i0)
          pub.publication_link pub
          ∨ q ∈ (processPublicationsAux cfg cache allowed detail page
            rest (i0 + 1)).processed := List.mem_cons.1 hq
      rcases hq' with rfl | hq''
      · exact crawlPublicationDetails_valid (hall pub (List.mem_cons_self _ _))
      · exact ih (i0 + 1) hrest q hq''
    · have hq' : q = pub ∨ q ∈ (processPublicationsAux cfg cache allowed detail page
          rest (i0 + 1)).processed := List.mem_cons.1 hq
      rcases hq' with rfl | hq''
      · exact hall q (List.mem_cons_self _ _)
      · exact ih (i0 + 1) hrest q hq''

/-! ## Helper lemmas: delivery -/

/-- Specification-side restatement of the per-item fallback's skip entries,
for comparison with `batchFallback`: one entry per enumerated record whose
individual send did not succeed, `api_send_failed` for a falsy return and
`api_send_exception` for an exception. -/
def fallbackSkipsSpec (f : Nat → SingleResult) (page : Nat)
    (pubs : List Publication) (j : Nat) : List SkipRecord :=
  (List.enumFrom j pubs).filterMap (fun ip =>
    match f ip.1 with
    | .ok => none
    | .failed => some ⟨"api_send_failed", page, ip.1, ip.2.title, ip.2.publication_link⟩
    | .raised => some ⟨"api_send_exception", page, ip.1, ip.2.title, ip.2.publication_link⟩)

lemma batchFallback_sent (f : Nat → SingleResult) (page : Nat) :
    ∀ (pubs : List Publication) (j : Nat),
      (batchFallback f page pubs j).2 = List.range' j pubs.length := by
  intro pubs
  induction pubs with
  | nil => intro j; rfl
  | cons pub rest ih =>
    intro j
    simp only [batchFallback]
    cases hf : f j <;>
      simp [hf, ih (j + 1), List.range'_succ, List.length_cons]

lemma batchFallback_skips (f : Nat → SingleResult) (page : Nat) :
    ∀ (pubs : List Publication) (j : Nat),
      (batchFallback f page pubs j).1 = fallbackSkipsSpec f page pubs j := by
  intro pubs
  induction pubs with
  | nil => intro j; rfl
  | cons pub rest ih =>
    intro j
    simp only [batchFallback, fallbackSkipsSpec, List.enumFrom, List.filterMap_cons]
    cases hf : f j <;>
      simp only [hf, ih (j + 1), fallbackSkipsSpec]

lemma batchFallback_entry (f : Nat → SingleResult) (page : Nat) :
    ∀ (pubs : List Publication) (j : Nat),
      ∀ e ∈ (batchFallback f page pubs j).1,
        (f e.index_on_page = .failed ∧ e.reason = "api_send_failed")
        ∨ (f e.index_on_page = .raised ∧ e.reason = "api_send_exception") := by
  intro pubs
  induction pubs with
  | nil => intro j e he; simp [batchFallback] at he
  | cons pub rest ih =>
    intro j e he
    simp only [batchFallback] at he
    cases hf : f j
    · rw [hf] at he
      exact ih (j + 1) e he
    · rw [hf] at he
      rcases List.mem_cons.1 he with rfl | he'
      · exact Or.inl ⟨hf, rfl⟩
      · exact ih (j + 1) e he'
    · rw [hf] at he
      rcases List.mem_cons.1 he with rfl | he'
      · exact Or.inr ⟨hf, rfl⟩
      · exact ih (j + 1) e he'

lemma sendToApiLoop_all_fail (att : Nat → Bool) (retries : Nat)
    (hf : ∀ a, a < retries → att a = false) :
    ∀ remaining attempt, attempt + remaining = retries →
      sendToApiLoop att retries remaining attempt = (false, retries) := by
  intro remaining
  induction remaining with
  | zero =>
    intro attempt h
    rw [sendToApiLoop]
    have : attempt = retries := by omega
    rw [this]
  | succ r ih =>
    intro attempt h
    rw [sendToApiLoop, hf attempt (by omega), if_neg (by simp)]
    exact ih (attempt + 1) (by omega)

lemma sendToApi_all_fail (att : Nat → Bool) (retries : Nat)
    (data : List Publication) (hd : data ≠ [])
    (hf : ∀ a, a < retries → att a = false) :
    sendToApi att retries data = (false, retries) := by
  rw [sendToApi, if_neg hd]
  exact sendToApiLoop_all_fail att retries hf retries 0 (by omega)

/-! ## Helper lemmas: robots policy -/

/-- Enforcement disabled, or policy unavailable: the degraded mode in which
every check passes. -/
def RobotsLax (cfg : Config) (rs : RobotsState) : Prop :=
  cfg.respectRobots = false ∨ rs.unavailable = true

lemma canFetch_lax {cfg : Config} {rs : RobotsState} (h : RobotsLax cfg rs)
    (url : String) :
    (canFetch cfg rs url).1 = true ∧ RobotsLax cfg (canFetch cfg rs url).2 := by
  rcases h with h | h
  · rw [canFetch, if_pos (by simp [h])]
    exact ⟨rfl, Or.inl h⟩
  · rw [canFetch]
    by_cases hr : (!cfg.respectRobots) = true
    · rw [if_pos hr]
      exact ⟨rfl, Or.inr h⟩
    · rw [if_neg hr]
      by_cases hf : (!rs.fetched) = true
      · rw [if_pos hf, if_pos (by simp [RobotsState.fetch])]
        exact ⟨rfl, Or.inr rfl⟩
      · rw [if_neg hf, if_pos h]
        exact ⟨rfl, Or.inr h⟩

lemma crawlDelaySeconds_lax {cfg : Config} {rs : RobotsState} (h : RobotsLax cfg rs) :
    (crawlDelaySeconds cfg rs).1 = cfg.fallbackDelay
    ∧ RobotsLax cfg (crawlDelaySeconds cfg rs).2 := by
  rcases h with h | h
  · rw [crawlDelaySeconds, if_pos (by simp [h])]
    exact ⟨rfl, Or.inl h⟩
  · rw [crawlDelaySeconds]
    by_cases hr : (!cfg.respectRobots) = true
    · rw [if_pos hr]
      exact ⟨rfl, Or.inr h⟩
    · rw [if_neg hr]
      by_cases hf : (!rs.fetched) = true
      · rw [if_pos hf, if_pos (by simp [RobotsState.fetch])]
        exact ⟨rfl, Or.inr rfl⟩
      · rw [if_neg hf, if_pos h]
        exact ⟨rfl, Or.inr h⟩

lemma respectRobotsOrSkip_lax {cfg : Config} {rs : RobotsState} (h : RobotsLax cfg rs)
    (url : String) :
    (respectRobotsOrSkip cfg rs url).1 = true
    ∧ RobotsLax cfg (respectRobotsOrSkip cfg rs url).2 := by
  rw [respectRobotsOrSkip]
  by_cases hr : (!cfg.respectRobots) = true
  · rw [if_pos hr]
    exact ⟨rfl, h⟩
  · rw [if_neg hr]
    exact canFetch_lax h url

/-- The robots-state property the positive-path loop theorems assume: every
check answers "allowed" and leaves the state unchanged (true when enforcement
is off, and when the policy is fetched and unavailable or fetched with
all-allowing rules). -/
def RobotsQuiet (cfg : Config) (rs : RobotsState) : Prop :=
  (∀ url, respectRobotsOrSkip cfg rs url = (true, rs))
  ∧ (crawlDelaySeconds cfg rs).2 = rs

/-! ## Helper lemmas: the traversal step -/

lemma crawlStep_success (cfg : Config) (env : Nat → PageSpec) (cache : List String)
    (u : Url) (s : LoopState) (hR : RobotsQuiet cfg s.st.robots)
    (hn : (env (getPageNumber (normalizeQueryUrl u))).navSuccess = true) :
    crawlStep cfg env cache u s =
      (let u1 := normalizeQueryUrl u
       let idx := getPageNumber u1
       let pubs := parsePublicationsPage (env idx).containers idx
       let pr := processPublications cfg cache
         (fun url => (respectRobotsOrSkip cfg s.st.robots url).1) (env idx).detail
         s.st.current_page pubs
       let newPubs := if pubs.isEmpty then [] else pr.processed
       let fallbackSkips :=
         if pubs.isEmpty then []
         else if !pr.processed.isEmpty && !cfg.apiPostEachDetail then
           if (sendToApi (env idx).batchAttempt cfg.apiRetries pr.processed).1 then []
           else (batchFallback (env idx).singleSend s.st.current_page pr.processed 1).1
         else []
       let newSkips := (if pubs.isEmpty then [] else pr.skipped) ++ fallbackSkips
       let total1 : Option Nat :=
         match s.totalPages with
         | some n => some n
         | none =>
           let d := getTotalPages (env idx).pagination
           if 0 < d then some d else none
       let nextUrl : Option Url :=
         match total1 with
         | some n =>
           if n ≤ idx + 1 then none
           else some (normalizeQueryUrl (setPage u1 (idx + 1)))
         | none => some (normalizeQueryUrl (setPage u1 (idx + 1)))
       { st := { all_publications := s.st.all_publications ++ newPubs
                 consecutive_errors := 0
                 current_page := s.st.current_page + 1
                 skipped_records := s.st.skipped_records ++ newSkips
                 robots := s.st.robots
                 navigatedPages := s.st.navigatedPages ++ [getPageNumber (normalizeQueryUrl u)]
                 robotsSkippedUrls := s.st.robotsSkippedUrls }
         currentUrl := nextUrl
         totalPages := total1 }) := by
  have h1 : respectRobotsOrSkip cfg (crawlDelaySeconds cfg s.st.robots).2 u.render
      = (true, s.st.robots) := by rw [hR.2]; exact hR.1 u.render
  simp only [crawlStep, h1]
  rw [if_neg (by simp), if_neg (by simp [hn])]

lemma crawlStep_navFail_stop (cfg : Config) (env : Nat → PageSpec) (cache : List String)
    (u : Url) (s : LoopState) (hR : RobotsQuiet cfg s.st.robots)
    (hn : (env (getPageNumber (normalizeQueryUrl u))).navSuccess = false)
    (htrip : cfg.maxConsecutiveErrors ≤ s.st.consecutive_errors + 1) :
    crawlStep cfg env cache u s =
      { st := { s.st with
                  robots := s.st.robots
                  consecutive_errors := s.st.consecutive_errors + 1
                  navigatedPages := s.st.navigatedPages
                    ++ [getPageNumber (normalizeQueryUrl u)] }
        currentUrl := none
        totalPages := s.totalPages } := by
  have h1 : respectRobotsOrSkip cfg (crawlDelaySeconds cfg s.st.robots).2 u.render
      = (true, s.st.robots) := by rw [hR.2]; exact hR.1 u.render
  simp only [crawlStep, h1]
  rw [if_neg (by simp), if_pos (by simp [hn]), if_pos htrip]

lemma crawlStep_navFail_cont (cfg : Config) (env : Nat → PageSpec) (cache : List String)
    (u : Url) (s : LoopState) (hR : RobotsQuiet cfg s.st.robots)
    (hn : (env (getPageNumber (normalizeQueryUrl u))).navSuccess = false)
    (hcont : ¬ cfg.maxConsecutiveErrors ≤ s.st.consecutive_errors + 1) :
    crawlStep cfg env cache u s =
      (let u1 := normalizeQueryUrl u
       let idx := getPageNumber u1
       let nextUrl : Option Url :=
         match s.totalPages with
         | some n =>
           if n ≤ idx + 1 then none
           else some (normalizeQueryUrl (setPage u1 (idx + 1)))
         | none => some (normalizeQueryUrl (setPage u1 (idx + 1)))
       { st := { s.st with
                   robots := s.st.robots
                   consecutive_errors := s.st.consecutive_errors + 1
                   current_page := s.st.current_page + 1
                   navigatedPages := s.st.navigatedPages ++ [idx] }
         currentUrl := nextUrl
         totalPages := s.totalPages }) := by
  have h1 : respectRobotsOrSkip cfg (crawlDelaySeconds cfg s.st.robots).2 u.render
      = (true, s.st.robots) := by rw [hR.2]; exact hR.1 u.render
  simp only [crawlStep, h1]
  rw [if_neg (by simp), if_pos (by simp [hn]), if_neg hcont]

lemma crawlStep_pubs_mono (cfg : Config) (env : Nat → PageSpec) (cache : List String)
    (u : Url) (s : LoopState) :
    ∃ t, (crawlStep cfg env cache u s).st.all_publications
      = s.st.all_publications ++ t := by
  rcases hchk : respectRobotsOrSkip cfg (crawlDelaySeconds cfg s.st.robots).2 u.render
    with ⟨allowed, rs1⟩
  simp only [crawlStep, hchk]
  by_cases ha : (!allowed) = true
  · rw [if_pos ha]
    exact ⟨[], by simp⟩
  · rw [if_neg ha]
    by_cases hn : (!(env (getPageNumber (normalizeQueryUrl u))).navSuccess) = true
    · rw [if_pos hn]
      by_cases htrip : cfg.maxConsecutiveErrors ≤ s.st.consecutive_errors + 1
      · rw [if_pos htrip]
        exact ⟨[], by simp⟩
      · rw [if_neg htrip]
        exact ⟨[], by simp⟩
    · rw [if_neg hn]
      exact ⟨_, rfl⟩

lemma crawlStep_valid (cfg : Config) (env : Nat → PageSpec) (cache : List String)
    (u : Url) (s : LoopState)
    (hvalid : ∀ r ∈ s.st.all_publications, ValidRecord r) :
    ∀ r ∈ (crawlStep cfg env cache u s).st.all_publications, ValidRecord r := by
  intro r hr
  rcases hchk : respectRobotsOrSkip cfg (crawlDelaySeconds cfg s.st.robots).2 u.render
    with ⟨allowed, rs1⟩
  simp only [crawlStep, hchk] at hr
  by_cases ha : (!allowed) = true
  · rw [if_pos ha] at hr
    exact hvalid r hr
  · rw [if_neg ha] at hr
    by_cases hn : (!(env (getPageNumber (normalizeQueryUrl u))).navSuccess) = true
    · rw [if_pos hn] at hr
      by_cases htrip : cfg.maxConsecutiveErrors ≤ s.st.consecutive_errors + 1
      · rw [if_pos htrip] at hr
        exact hvalid r hr
      · rw [if_neg htrip] at hr
        exact hvalid r hr
    · rw [if_neg hn] at hr
      rcases List.mem_append.1 hr with hr' | hr'
      · exact hvalid r hr'
      · by_cases hp : (parsePublicationsPage
            (env (getPageNumber (normalizeQueryUrl u))).containers
            (getPageNumber (normalizeQueryUrl u))).isEmpty
        · rw [if_pos hp] at hr'
          exact absurd hr' (by simp)
        · rw [if_neg hp] at hr'
          refine processPublicationsAux_processed_valid cfg cache _ _ _ _ 0 ?_ r hr'
          intro p hp'
          exact parsePublicationsPage_valid hp'

lemma crawlStep_lax (cfg : Config) (env : Nat → PageSpec) (cache : List String)
    (u : Url) (s : LoopState) (hlax : RobotsLax cfg s.st.robots) :
    RobotsLax cfg (crawlStep cfg env cache u s).st.robots
    ∧ (crawlStep cfg env cache u s).st.robotsSkippedUrls = s.st.robotsSkippedUrls := by
  have hd := crawlDelaySeconds_lax hlax
  have hc := respectRobotsOrSkip_lax hd.2 u.render
  rcases hchk : respectRobotsOrSkip cfg (crawlDelaySeconds cfg s.st.robots).2 u.render
    with ⟨allowed, rs1⟩
  rw [hchk] at hc
  have ha : allowed = true := hc.1
  simp only [crawlStep, hchk]
  rw [if_neg (by simp [ha])]
  by_cases hn : (!(env (getPageNumber (normalizeQueryUrl u))).navSuccess) = true
  · rw [if_pos hn]
    by_cases htrip : cfg.maxConsecutiveErrors ≤ s.st.consecutive_errors + 1
    · rw [if_pos htrip]
      exact ⟨hc.2, rfl⟩
    · rw [if_neg htrip]
      exact ⟨hc.2, rfl⟩
  · rw [if_neg hn]
    exact ⟨hc.2, rfl⟩

/-! ## Helper lemmas: the traversal loop -/

lemma crawlLoop_none (cfg : Config) (env : Nat → PageSpec) (cache : List String)
    (fuel : Nat) (s : LoopState) (h : s.currentUrl = none) :
    crawlLoop cfg env cache fuel s = s := by
  cases fuel with
  | zero => rfl
  | succ f => rw [crawlLoop, h]

lemma crawlLoop_pubs_mono (cfg : Config) (env : Nat → PageSpec) (cache : List String) :
    ∀ (fuel : Nat) (s : LoopState),
      ∃ t, (crawlLoop cfg env cache fuel s).st.all_publications
        = s.st.all_publications ++ t := by
  intro fuel
  induction fuel with
  | zero => intro s; exact ⟨[], by simp [crawlLoop]⟩
  | succ f ih =>
    intro s
    cases hcur : s.currentUrl with
    | none => rw [crawlLoop, hcur]; exact ⟨[], by simp⟩
    | some u =>
      rw [crawlLoop, hcur]
      rcases ih (crawlStep cfg env cache u s) with ⟨t2, ht2⟩
      rcases crawlStep_pubs_mono cfg env cache u s with ⟨t1, ht1⟩
      exact ⟨t1 ++ t2, by rw [ht2, ht1, List.append_assoc]⟩

lemma crawlLoop_valid (cfg : Config) (env : Nat → PageSpec) (cache : List String) :
    ∀ (fuel : Nat) (s : LoopState),
      (∀ r ∈ s.st.all_publications, ValidRecord r) →
      ∀ r ∈ (crawlLoop cfg env cache fuel s).st.all_publications, ValidRecord r := by
  intro fuel
  induction fuel with
  | zero => intro s hs; exact hs
  | succ f ih =>
    intro s hs
    cases hcur : s.currentUrl with
    | none => rw [crawlLoop, hcur]; exact hs
    | some u =>
      rw [crawlLoop, hcur]
      exact ih (crawlStep cfg env cache u s)
        (crawlStep_valid cfg env cache u s hs)

lemma crawlLoop_lax (cfg : Config) (env : Nat → PageSpec) (cache : List String) :
    ∀ (fuel : Nat) (s : LoopState), RobotsLax cfg s.st.robots →
      (crawlLoop cfg env cache fuel s).st.robotsSkippedUrls
        = s.st.robotsSkippedUrls := by
  intro fuel
  induction fuel with
  | zero => intro s _; rfl
  | succ f ih =>
    intro s hs
    cases hcur : s.currentUrl with
    | none => rw [crawlLoop, hcur]
    | some u =>
      rw [crawlLoop, hcur]
      rcases crawlStep_lax cfg env cache u s hs with ⟨hlax', hurls⟩
      rw [ih (crawlStep cfg env cache u s) hlax', hurls]

lemma crawlLoop_visits (cfg : Config) (env : Nat → PageSpec) (cache : List String)
    (rs : RobotsState) (hRq : RobotsQuiet cfg rs)
    (hnav : ∀ k, (env k).navSuccess = true) (N : Nat) :
    ∀ (m : Nat), 1 ≤ m → ∀ (k : Nat) (u : Url) (s : LoopState) (fuel : Nat),
      k + m = N → getPageNumber u = k → s.st.robots = rs →
      s.currentUrl = some u → s.totalPages = some N → m ≤ fuel →
      (crawlLoop cfg env cache fuel s).st.navigatedPages
        = s.st.navigatedPages ++ List.range' k m
      ∧ (crawlLoop cfg env cache fuel s).currentUrl = none := by
  intro m
  induction m with
  | zero => intro h1; omega
  | succ m' ih =>
    intro _ k u s fuel hkm hku hrob hcur htot hfuel
    cases fuel with
    | zero => omega
    | succ f =>
      have hunfold : crawlLoop cfg env cache (f + 1) s
          = crawlLoop cfg env cache f (crawlStep cfg env cache u s) := by
        rw [crawlLoop, hcur]
      rw [hunfold]
      have hRq' : RobotsQuiet cfg s.st.robots := hrob ▸ hRq
      have hstep := crawlStep_success cfg env cache u s hRq' (hnav _)
      have hidx : getPageNumber (normalizeQueryUrl u) = k := by
        rw [getPageNumber_normalize, hku]
      have hA : (crawlStep cfg env cache u s).st.navigatedPages
          = s.st.navigatedPages ++ [k] := by
        rw [hstep, hidx]
      have hB : (crawlStep cfg env cache u s).totalPages = some N := by
        rw [hstep]
        show (match s.totalPages with
          | some n => some n
          | none =>
            let d := getTotalPages (env (getPageNumber (normalizeQueryUrl u))).pagination
            if 0 < d then some d else none) = some N
        rw [htot]
      have hC : (crawlStep cfg env cache u s).st.robots = rs := by
        rw [hstep]; exact hrob
      cases Nat.eq_zero_or_pos m' with
      | inl hm0 =>
        subst hm0
        have hD : (crawlStep cfg env cache u s).currentUrl = none := by
          rw [hstep]
          show (match (match s.totalPages with
              | some n => some n
              | none =>
                let d := getTotalPages
                  (env (getPageNumber (normalizeQueryUrl u))).pagination
                if 0 < d then some d else none : Option Nat) with
            | some n =>
              if n ≤ getPageNumber (normalizeQueryUrl u) + 1 then none
              else some (normalizeQueryUrl
                (setPage (normalizeQueryUrl u) (getPageNumber (normalizeQueryUrl u) + 1)))
            | none => some (normalizeQueryUrl
                (setPage (normalizeQueryUrl u) (getPageNumber (normalizeQueryUrl u) + 1)))) = none
          rw [htot]
          show (if N ≤ getPageNumber (normalizeQueryUrl u) + 1 then none
            else some (normalizeQueryUrl
              (setPage (normalizeQueryUrl u) (getPageNumber (normalizeQueryUrl u) + 1)))) = none
          rw [hidx, if_pos (by omega)]
        rw [crawlLoop_none cfg env cache f _ hD, hA]
        exact ⟨rfl, hD⟩
      | inr hm1 =>
        have hD : (crawlStep cfg env cache u s).currentUrl
            = some (normalizeQueryUrl (setPage (normalizeQueryUrl u) (k + 1))) := by
          rw [hstep]
          show (match (match s.totalPages with
              | some n => some n
              | none =>
                let d := getTotalPages
                  (env (getPageNumber (normalizeQueryUrl u))).pagination
                if 0 < d then some d else none : Option Nat) with
            | some n =>
              if n ≤ getPageNumber (normalizeQueryUrl u) + 1 then none
              else some (normalizeQueryUrl
                (setPage (normalizeQueryUrl u) (getPageNumber (normalizeQueryUrl u) + 1)))
            | none => some (normalizeQueryUrl
                (setPage (normalizeQueryUrl u) (getPageNumber (normalizeQueryUrl u) + 1)))) =
            some (normalizeQueryUrl (setPage (normalizeQueryUrl u) (k + 1)))
          rw [htot]
          show (if N ≤ getPageNumber (normalizeQueryUrl u) + 1 then none
            else some (normalizeQueryUrl
              (setPage (normalizeQueryUrl u) (getPageNumber (normalizeQueryUrl u) + 1)))) =
            some (normalizeQueryUrl (setPage (normalizeQueryUrl u) (k + 1)))
          rw [hidx, if_neg (by omega)]
        have hE : getPageNumber (normalizeQueryUrl (setPage (normalizeQueryUrl u) (k + 1)))
            = k + 1 := by
          rw [getPageNumber_normalize, getPageNumber_setPage]
        have := ih hm1 (k + 1) _ (crawlStep cfg env cache u s) f (by omega) hE hC hD hB
          (by omega)
        rcases this with ⟨hnav2, hcur2⟩
        refine ⟨?_, hcur2⟩
        rw [hnav2, hA, List.append_assoc]
        congr 1

lemma crawlAllPages_visits (cfg : Config) (env : Nat → PageSpec) (cache : List String)
    (rs : RobotsState) (seed : Url) (N fuel : Nat)
    (hRq : RobotsQuiet cfg rs) (hnav : ∀ k, (env k).navSuccess = true)
    (hseed : getPageNumber seed = 0)
    (hN : getTotalPages (env 0).pagination = N) (hfuel : N ≤ fuel) :
    (crawlAllPages cfg env cache rs seed fuel).st.navigatedPages = List.range N
    ∧ (crawlAllPages cfg env cache rs seed fuel).totalPages = some N
    ∧ (crawlAllPages cfg env cache rs seed fuel).currentUrl = none := by
  have hN1 : 1 ≤ N := hN ▸ one_le_getTotalPages _
  cases fuel with
  | zero => omega
  | succ f =>
    rw [crawlAllPages]
    have hunfold : crawlLoop cfg env cache (f + 1)
        ⟨initialCrawlState rs, some (normalizeQueryUrl seed), none⟩
        = crawlLoop cfg env cache f
          (crawlStep cfg env cache (normalizeQueryUrl seed)
            ⟨initialCrawlState rs, some (normalizeQueryUrl seed), none⟩) := by
      rw [crawlLoop]
    rw [hunfold]
    have hRq0 : RobotsQuiet cfg
        (⟨initialCrawlState rs, some (normalizeQueryUrl seed), none⟩ : LoopState).st.robots :=
      hRq
    have hstep := crawlStep_success cfg env cache (normalizeQueryUrl seed)
      ⟨initialCrawlState rs, some (normalizeQueryUrl seed), none⟩ hRq0 (hnav _)
    have hidx : getPageNumber (normalizeQueryUrl (normalizeQueryUrl seed)) = 0 := by
      rw [getPageNumber_normalize, getPageNumber_normalize, hseed]
    have hA : (crawlStep cfg env cache (normalizeQueryUrl seed)
        ⟨initialCrawlState rs, some (normalizeQueryUrl seed), none⟩).st.navigatedPages
        = [0] := by
      rw [hstep, hidx]
      rfl
    have hB : (crawlStep cfg env cache (normalizeQueryUrl seed)
        ⟨initialCrawlState rs, some (normalizeQueryUrl seed), none⟩).totalPages
        = some N := by
      rw [hstep]
      show (if 0 < getTotalPages
            (env (getPageNumber (normalizeQueryUrl (normalizeQueryUrl seed)))).pagination
          then some (getTotalPages
            (env (getPageNumber (normalizeQueryUrl (normalizeQueryUrl seed)))).pagination)
          else none) = some N
      rw [hidx, hN]
      show (if 0 < N then some N else none) = some N
      rw [if_pos (by omega)]
    have hC : (crawlStep cfg env cache (normalizeQueryUrl seed)
        ⟨initialCrawlState rs, some (normalizeQueryUrl seed), none⟩).st.robots = rs := by
      rw [hstep]
      rfl
    cases Nat.lt_or_ge 1 N with
    | inr hN2 =>
      -- N = 1: the loop stops after page 0
      have hNeq : N = 1 := by omega
      subst hNeq
      have hD : (crawlStep cfg env cache (normalizeQueryUrl seed)
          ⟨initialCrawlState rs, some (normalizeQueryUrl seed), none⟩).currentUrl
          = none := by
        rw [hstep]
        show (match (if 0 < getTotalPages
              (env (getPageNumber (normalizeQueryUrl (normalizeQueryUrl seed)))).pagination
            then some (getTotalPages
              (env (getPageNumber (normalizeQueryUrl (normalizeQueryUrl seed)))).pagination)
            else none : Option Nat) with
          | some n =>
            if n ≤ getPageNumber (normalizeQueryUrl (normalizeQueryUrl seed)) + 1 then none
            else some (normalizeQueryUrl (setPage (normalizeQueryUrl (normalizeQueryUrl seed))
              (getPageNumber (normalizeQueryUrl (normalizeQueryUrl seed)) + 1)))
          | none => some (normalizeQueryUrl (setPage (normalizeQueryUrl (normalizeQueryUrl seed))
              (getPageNumber (normalizeQueryUrl (normalizeQueryUrl seed)) + 1)))) = none
        rw [hidx, hN]
        show (if (1 : Nat) ≤ 0 + 1 then none
          else some (normalizeQueryUrl (setPage (normalizeQueryUrl (normalizeQueryUrl seed))
            (0 + 1)))) = none
        rw [if_pos (by omega)]
      rw [crawlLoop_none cfg env cache f _ hD]
      exact ⟨hA, hB, hD⟩
    | inl hN2 =>
      -- N ≥ 2: the remaining pages 1 .. N-1 are visited by the invariant
      have hD : (crawlStep cfg env cache (normalizeQueryUrl seed)
          ⟨initialCrawlState rs, some (normalizeQueryUrl seed), none⟩).currentUrl
          = some (normalizeQueryUrl
            (setPage (normalizeQueryUrl (normalizeQueryUrl seed)) 1)) := by
        rw [hstep]
        show (match (if 0 < getTotalPages
              (env (getPageNumber (normalizeQueryUrl (normalizeQueryUrl seed)))).pagination
            then some (getTotalPages
              (env (getPageNumber (normalizeQueryUrl (normalizeQueryUrl seed)))).pagination)
            else none : Option Nat) with
          | some n =>
            if n ≤ getPageNumber (normalizeQueryUrl (normalizeQueryUrl seed)) + 1 then none
            else some (normalizeQueryUrl (setPage (normalizeQueryUrl (normalizeQueryUrl seed))
              (getPageNumber (normalizeQueryUrl (normalizeQueryUrl seed)) + 1)))
          | none => some (normalizeQueryUrl (setPage (normalizeQueryUrl (normalizeQueryUrl seed))
              (getPageNumber (normalizeQueryUrl (normalizeQueryUrl seed)) + 1)))) =
          some (normalizeQueryUrl (setPage (normalizeQueryUrl (normalizeQueryUrl seed)) 1))
        rw [hidx, hN, if_pos (show 0 < N by omega)]
        show (if N ≤ 0 + 1 then none
          else some (normalizeQueryUrl (setPage (normalizeQueryUrl (normalizeQueryUrl seed))
            (0 + 1)))) =
          some (normalizeQueryUrl (setPage (normalizeQueryUrl (normalizeQueryUrl seed)) 1))
        rw [if_neg (by omega)]
      have hE : getPageNumber (normalizeQueryUrl
          (setPage (normalizeQueryUrl (normalizeQueryUrl seed)) 1)) = 1 := by
        rw [getPageNumber_normalize, getPageNumber_setPage]
      have hinv := crawlLoop_visits cfg env cache rs hRq hnav N (N - 1) (by omega) 1 _
        (crawlStep cfg env cache (normalizeQueryUrl seed)
          ⟨initialCrawlState rs, some (normalizeQueryUrl seed), none⟩) f
        (by omega) hE hC hD hB (by omega)
      rcases hinv with ⟨hnav2, hcur2⟩
      refine ⟨?_, ?_, hcur2⟩
      · rw [hnav2, hA]
        have hr : List.range N = 0 :: List.range' 1 (N - 1) := by
          cases N with
          | zero => omega
          | succ m =>
            rw [List.range_eq_range', List.range'_succ]
            simp
        rw [hr]
        rfl
      · -- totalPages is never reset once determined
        have htotkeep : ∀ (fuel2 : Nat) (s2 : LoopState) (n2 : Nat),
            s2.totalPages = some n2 →
            (crawlLoop cfg env cache fuel2 s2).totalPages = some n2 := by
          intro fuel2
          induction fuel2 with
          | zero => intro s2 n2 h2; exact h2
          | succ f2 ih =>
            intro s2 n2 h2
            cases hcur3 : s2.currentUrl with
            | none => rw [crawlLoop, hcur3]; exact h2
            | some u3 =>
              have hunfold3 : crawlLoop cfg env cache (f2 + 1) s2
                  = crawlLoop cfg env cache f2 (crawlStep cfg env cache u3 s2) := by
                rw [crawlLoop, hcur3]
              rw [hunfold3]
              apply ih
              rcases hchk : respectRobotsOrSkip cfg
                (crawlDelaySeconds cfg s2.st.robots).2 u3.render with ⟨allowed, rs1⟩
              simp only [crawlStep, hchk]
              by_cases ha : (!allowed) = true
              · rw [if_pos ha]; exact h2
              · rw [if_neg ha]
                by_cases hn : (!(env (getPageNumber (normalizeQueryUrl u3))).navSuccess) = true
                · rw [if_pos hn]
                  by_cases htrip : cfg.maxConsecutiveErrors ≤ s2.st.consecutive_errors + 1
                  · rw [if_pos htrip]; exact h2
                  · rw [if_neg htrip]; exact h2
                · rw [if_neg hn]
                  show (match s2.totalPages with
                    | some n => some n
                    | none =>
                      if 0 < getTotalPages
                          (env (getPageNumber (normalizeQueryUrl u3))).pagination
                      then some (getTotalPages
                          (env (getPageNumber (normalizeQueryUrl u3))).pagination)
                      else none) = some n2
                  rw [h2]
        exact htotkeep f _ N hB

/-! ## Concrete fixtures used by witnesses and counterexamples -/

/-- A configuration with robots enforcement off (the missing settings
instantiated with plausible values; the claims are proved for every
configuration). -/
def cfgB : Config := ⟨3, 5, 3, false, false, 1⟩

/-- A configuration with robots enforcement on. -/
def cfgR : Config := ⟨3, 5, 3, false, true, 1⟩

/-- A fetched-but-unavailable robots state. -/
def rsB : RobotsState := ⟨true, true, none, fun _ => true⟩

/-- A page with no result containers and the given pagination markup. -/
def pageEnvOf (nav : Bool) (pg : Pagination) : PageSpec :=
  ⟨nav, [], pg, fun _ => true, fun _ => .ok, fun _ _ => .timeout⟩

/-- Every page renders fine but carries no pagination markup at all. -/
def envNoPagination : Nat → PageSpec :=
  fun _ => pageEnvOf true ⟨[], false, []⟩

/-- Every page renders fine; the navigation declares pages `0..1` (the
`first..last‹Next›` pattern with last index 1, so a total of 2). -/
def envTwoPages : Nat → PageSpec :=
  fun _ => pageEnvOf true ⟨[⟨true, some (0, 1), []⟩], true, []⟩

/-! ## Claims -/

/-- Claim C9: URL normalization is idempotent — for every parsed URL,
normalizing twice equals normalizing once — and it identifies a cursor whose
path has a trailing separator before a query string with the separator-free
cursor, so `…/path/?page=1` and `…/path?page=1` are dispatched in the same
form. -/
theorem C9_normalization_idempotent :
    (∀ u : Url, normalizeQueryUrl (normalizeQueryUrl u) = normalizeQueryUrl u)
    ∧ (∀ u : Url, u.query ≠ [] →
        normalizeQueryUrl { u with path := u.path ++ "/" } = normalizeQueryUrl u) := by
  constructor
  · exact normalizeQueryUrl_idem
  · intro u hq
    have hcond : ({ u with path := u.path ++ "/" } : Url).query ≠ []
        ∧ endsWithSlash ({ u with path := u.path ++ "/" } : Url).path := by
      refine ⟨hq, ?_⟩
      show endsWithSlash (u.path ++ "/") = true
      exact endsWithSlash_append_slash u.path
    rw [normalizeQueryUrl, if_pos hcond]
    by_cases he : endsWithSlash u.path = true
    · rw [normalizeQueryUrl, if_pos ⟨hq, he⟩]
      show ({ u with path := rstripSlash (u.path ++ "/") } : Url)
        = { u with path := rstripSlash u.path }
      rw [rstripSlash_append_slash]
    · rw [normalizeQueryUrl, if_neg (by rintro ⟨-, h2⟩; exact he h2)]
      show ({ u with path := rstripSlash (u.path ++ "/") } : Url) = u
      rw [rstripSlash_append_slash, rstripSlash_of_not_ends (by simpa using he)]

/-- Witness for C9 at the configured seed URL. -/
theorem C9_witness :
    normalizeQueryUrl { seedUrl with path := seedUrl.path ++ "/" }
      = normalizeQueryUrl seedUrl :=
  C9_normalization_idempotent.2 seedUrl (by decide)

/-- Claim C10: for the empty input list, `send_to_api` returns `False`
without making any HTTP attempt (the attempt counter stays 0), so an empty
batch can never be reported as successfully delivered. -/
theorem C10_empty_batch (att : Nat → Bool) (retries : Nat) :
    sendToApi att retries [] = (false, 0) := by
  rw [sendToApi, if_pos rfl]

/-- Counterexample to claim C3 as stated: a container whose title link is the
string `httpfoo` — which is not an absolute http(s) URL by the repository's
own `validate_url` — passes extraction, because the gate only tests the
literal prefix `http`.  The parser yields a record for that container. -/
theorem C3_counterexample :
    (extractPublicationData ⟨some ⟨"T", "httpfoo"⟩, [], none, some "2020", none⟩ 0).map
        (fun r => r.publication_link) = some "httpfoo"
    ∧ validateUrl "httpfoo" = false := by
  exact ⟨by decide, by decide⟩

/-- Claim C3 (amended): a record whose year string is missing or non-numeric,
or whose numeric year lies outside `[1900, 2030]`, is rejected at the
extraction boundary; a record whose base-URL-resolved link does not start
with the literal prefix `http` (in particular an empty link) is rejected —
the check is a prefix test, not full absolute-URL validity; consequently
every extracted record, and every record ever accumulated by the traversal
loop, has a year in `[1900, 2030]` and a link starting with `http`. -/
theorem C3_extraction_gates :
    (∀ (c : Container) (k : Nat), pyIsDigit (computeYearString c) = false →
        extractPublicationData c k = none)
    ∧ (∀ (c : Container) (k : Nat),
        digitsVal (computeYearString c).data < 1900
          ∨ digitsVal (computeYearString c).data > 2030 →
        extractPublicationData c k = none)
    ∧ (∀ (c : Container) (te : TitleElem) (k : Nat), c.titleElem = some te →
        strStartsWith (resolveLink te.href) "http" = false →
        extractPublicationData c k = none)
    ∧ (∀ (c : Container) (k : Nat) (r : Publication),
        extractPublicationData c k = some r → ValidRecord r)
    ∧ (∀ (cfg : Config) (env : Nat → PageSpec) (cache : List String)
        (fuel : Nat) (s : LoopState),
        (∀ r ∈ s.st.all_publications, ValidRecord r) →
        ∀ r ∈ (crawlLoop cfg env cache fuel s).st.all_publications, ValidRecord r) := by
  refine ⟨?_, ?_, ?_, ?_, ?_⟩
  · intro c k h
    cases hte : c.titleElem with
    | none => simp [extractPublicationData, hte]
    | some te => simp [extractPublicationData, hte, h]
  · intro c k h
    by_cases hy : pyIsDigit (computeYearString c) = false
    · cases hte : c.titleElem with
      | none => simp [extractPublicationData, hte]
      | some te => simp [extractPublicationData, hte, hy]
    · have hy2 : pyIsDigit (computeYearString c) = true := by
        cases hb : pyIsDigit (computeYearString c)
        · exact absurd hb hy
        · rfl
      have hne : ¬ computeYearString c = "" := by
        intro h0
        rw [h0] at hy2
        exact absurd hy2 (by decide)
      cases hte : c.titleElem with
      | none => simp [extractPublicationData, hte]
      | some te =>
        rcases h with h | h
        · simp [extractPublicationData, hte, hy2, hne, h]
        · simp [extractPublicationData, hte, hy2, hne, h]
  · intro c te k hte hlink
    simp [extractPublicationData, hte, hlink]
  · intro c k r hr
    exact extractPublicationData_valid hr
  · intro cfg env cache fuel s hs
    exact crawlLoop_valid cfg env cache fuel s hs

/-- Witness for the amended C3: the year, range and link gates each reject a
concrete container, and a link-valid record is extracted with its invariant. -/
theorem C3_gates_witness :
    extractPublicationData ⟨some ⟨"T", "/x"⟩, [], none, none, some "notyear"⟩ 2 = none
    ∧ extractPublicationData ⟨some ⟨"T", "/x"⟩, [], none, none, some "2031"⟩ 2 = none
    ∧ extractPublicationData ⟨some ⟨"T", ""⟩, [], none, some "2020", none⟩ 2 = none := by
  refine ⟨?_, ?_, ?_⟩
  · exact C3_extraction_gates.1 ⟨some ⟨"T", "/x"⟩, [], none, none, some "notyear"⟩ 2
      (by decide)
  · exact C3_extraction_gates.2.1 ⟨some ⟨"T", "/x"⟩, [], none, none, some "2031"⟩ 2
      (by decide)
  · exact C3_extraction_gates.2.2.1 ⟨some ⟨"T", ""⟩, [], none, some "2020", none⟩
      ⟨"T", ""⟩ 2 rfl (by decide)

/-- Claim C8: whenever robots enforcement is disabled, or the robots state is
unavailable because its fetch or parse failed, `can_fetch` returns true for
every URL and `crawl_delay_seconds` returns the configured fallback delay —
and the degraded mode persists through any returned state — so the traversal
loop never adds a URL to the robots-skipped log in such a session. -/
theorem C8_robots_degraded (cfg : Config) (rs : RobotsState)
    (hlax : RobotsLax cfg rs) :
    (∀ url, (canFetch cfg rs url).1 = true ∧ RobotsLax cfg (canFetch cfg rs url).2)
    ∧ ((crawlDelaySeconds cfg rs).1 = cfg.fallbackDelay
        ∧ RobotsLax cfg (crawlDelaySeconds cfg rs).2)
    ∧ (∀ url, (respectRobotsOrSkip cfg rs url).1 = true)
    ∧ (∀ (env : Nat → PageSpec) (cache : List String) (fuel : Nat)
        (s : LoopState), s.st.robots = rs →
        (crawlLoop cfg env cache fuel s).st.robotsSkippedUrls
          = s.st.robotsSkippedUrls) := by
  refine ⟨fun url => canFetch_lax hlax url, crawlDelaySeconds_lax hlax,
    fun url => (respectRobotsOrSkip_lax hlax url).1, ?_⟩
  intro env cache fuel s hs
  exact crawlLoop_lax cfg env cache fuel s (by rw [hs]; exact hlax)

/-- Witness for C8 with a fetched-but-unavailable robots state under an
enforcement-on configuration. -/
theorem C8_witness :
    (canFetch cfgR rsB "https://x.example/a").1 = true
    ∧ (crawlDelaySeconds cfgR rsB).1 = cfgR.fallbackDelay := by
  have h := C8_robots_degraded cfgR rsB (Or.inr rfl)
  exact ⟨(h.1 "https://x.example/a").1, h.2.1.1⟩

/-- Claim C4: a record whose title is present in the deduplication cache is
skipped with a skip entry of reason `already_exists` recording the page, the
1-based position on the page, the title and the link; it receives no detail
enrichment; and no processed (delivered) record ever has a cached title —
the check is on the title alone, regardless of the link. -/
theorem C4_cached_title_skipped (cfg : Config) (cache : List String)
    (allowed : String → Bool) (detail : Nat → Nat → DetailAttempt) (page : Nat)
    (pubs : List Publication) (i : Nat) (h : i < pubs.length)
    (ht : (pubs.get ⟨i, h⟩).title ≠ "")
    (hc : isPublicationExists cache (pubs.get ⟨i, h⟩).title = true) :
    (⟨"already_exists", page, i + 1, (pubs.get ⟨i, h⟩).title,
        (pubs.get ⟨i, h⟩).publication_link⟩ : SkipRecord)
      ∈ (processPublications cfg cache allowed detail page pubs).skipped
    ∧ i ∉ (processPublications cfg cache allowed detail page pubs).enriched
    ∧ ∀ q ∈ (processPublications cfg cache allowed detail page pubs).processed,
        isPublicationExists cache q.title = false := by
  refine ⟨?_, ?_, ?_⟩
  · have h1 := processPublicationsAux_already cfg cache allowed detail page pubs 0 i h ht hc
    have h2 : (0 : Nat) + i + 1 = i + 1 := by omega
    rw [h2] at h1
    exact h1
  · have h1 := processPublicationsAux_not_enriched cfg cache allowed detail page pubs 0 i h ht hc
    rw [Nat.zero_add] at h1
    exact h1
  · intro q hq
    exact processPublicationsAux_processed_not_cached cfg cache allowed detail page
      pubs 0 q hq

/-- Witness for C4 at a one-element page whose title is seeded in the cache. -/
theorem C4_witness :
    (⟨"already_exists", 4, 1, "Existing Paper", "http://a"⟩ : SkipRecord)
      ∈ (processPublications cfgB ["Existing Paper"] (fun _ => true)
          (fun _ _ => DetailAttempt.timeout) 4
          [⟨"Existing Paper", 2020, "A", "http://a", "", 0, none⟩]).skipped
    ∧ 0 ∉ (processPublications cfgB ["Existing Paper"] (fun _ => true)
          (fun _ _ => DetailAttempt.timeout) 4
          [⟨"Existing Paper", 2020, "A", "http://a", "", 0, none⟩]).enriched := by
  have h := C4_cached_title_skipped cfgB ["Existing Paper"] (fun _ => true)
    (fun _ _ => DetailAttempt.timeout) 4
    [⟨"Existing Paper", 2020, "A", "http://a", "", 0, none⟩] 0 (by decide)
    (by decide) (by decide)
  exact ⟨h.1, h.2.1⟩

/-- Claim C6: for a new record with a non-empty `http` link allowed by policy,
if every detail-enrichment attempt fails with a timeout or a driver error,
the enricher returns the original basic record unchanged, and that basic
record is still present in the processed (to-be-delivered) list. -/
theorem C6_enrichment_failure_keeps_record (cfg : Config) (cache : List String)
    (allowed : String → Bool) (detail : Nat → Nat → DetailAttempt) (page : Nat)
    (pubs : List Publication) (i : Nat) (h : i < pubs.length)
    (ht : (pubs.get ⟨i, h⟩).title ≠ "")
    (hc : isPublicationExists cache (pubs.get ⟨i, h⟩).title = false)
    (hl : strStartsWith (pubs.get ⟨i, h⟩).publication_link "http" = true)
    (ha : allowed (pubs.get ⟨i, h⟩).publication_link = true)
    (hf : ∀ a, a < cfg.maxRetries →
        detail i a = DetailAttempt.timeout ∨ detail i a = DetailAttempt.driverError) :
    crawlPublicationDetails cfg allowed (detail i)
        (pubs.get ⟨i, h⟩).publication_link (pubs.get ⟨i, h⟩) = pubs.get ⟨i, h⟩
    ∧ pubs.get ⟨i, h⟩
        ∈ (processPublications cfg cache allowed detail page pubs).processed := by
  have hall := crawlPublicationDetails_all_fail cfg allowed (detail i)
    (pubs.get ⟨i, h⟩).publication_link (pubs.get ⟨i, h⟩) hl ha hf
  refine ⟨hall, ?_⟩
  have hm := processPublicationsAux_member_enriched cfg cache allowed detail page
    pubs 0 i h ht hc (startsWith_http_ne_empty hl) hl
  rw [Nat.zero_add] at hm
  rw [hall] at hm
  exact hm

/-- Witness for C6: all attempts time out, yet the basic record survives. -/
theorem C6_witness :
    (⟨"T", 2020, "A", "http://a", "", 0, none⟩ : Publication)
      ∈ (processPublications cfgB [] (fun _ => true)
          (fun _ _ => DetailAttempt.timeout) 0
          [⟨"T", 2020, "A", "http://a", "", 0, none⟩]).processed :=
  (C6_enrichment_failure_keeps_record cfgB [] (fun _ => true)
    (fun _ _ => DetailAttempt.timeout) 0
    [⟨"T", 2020, "A", "http://a", "", 0, none⟩] 0 (by decide) (by decide)
    (by decide) (by decide) rfl (fun a _ => Or.inl rfl)).2

/-- Claim C5: in batch mode, an empty-or-all-attempts-failed batch delivery
reports failure; the per-item fallback then sends every record of the batch
individually exactly once (indices 1..len); its skip log is exactly the
individually-failing records — reason `api_send_failed` for a falsy result,
`api_send_exception` for a raised one — and an individually-succeeding record
never appears in it; and on a page whose batch send failed, the session skip
log grows by the page's processing skips followed by exactly those fallback
entries. -/
theorem C5_batch_fallback :
    (∀ (att : Nat → Bool) (retries : Nat) (data : List Publication),
        data ≠ [] → (∀ a, a < retries → att a = false) →
        sendToApi att retries data = (false, retries))
    ∧ (∀ (f : Nat → SingleResult) (page : Nat) (pubs : List Publication),
        (batchFallback f page pubs 1).2 = List.range' 1 pubs.length
        ∧ (batchFallback f page pubs 1).1 = fallbackSkipsSpec f page pubs 1)
    ∧ (∀ (f : Nat → SingleResult) (page : Nat) (pubs : List Publication),
        ∀ e ∈ (batchFallback f page pubs 1).1,
          (f e.index_on_page = SingleResult.failed ∧ e.reason = "api_send_failed")
          ∨ (f e.index_on_page = SingleResult.raised
              ∧ e.reason = "api_send_exception"))
    ∧ (∀ (f : Nat → SingleResult) (page : Nat) (pubs : List Publication) (i : Nat),
        f i = SingleResult.ok →
        ∀ e ∈ (batchFallback f page pubs 1).1, e.index_on_page ≠ i)
    ∧ (∀ (cfg : Config) (env : Nat → PageSpec) (cache : List String) (u : Url)
        (s : LoopState) (pubs : List Publication) (pr : ProcOut),
        RobotsQuiet cfg s.st.robots →
        (env (getPageNumber (normalizeQueryUrl u))).navSuccess = true →
        cfg.apiPostEachDetail = false →
        pubs = parsePublicationsPage
          (env (getPageNumber (normalizeQueryUrl u))).containers
          (getPageNumber (normalizeQueryUrl u)) →
        pr = processPublications cfg cache
          (fun url => (respectRobotsOrSkip cfg s.st.robots url).1)
          (env (getPageNumber (normalizeQueryUrl u))).detail
          s.st.current_page pubs →
        pubs.isEmpty = false →
        pr.processed.isEmpty = false →
        (sendToApi (env (getPageNumber (normalizeQueryUrl u))).batchAttempt
          cfg.apiRetries pr.processed).1 = false →
        (crawlStep cfg env cache u s).st.skipped_records
          = s.st.skipped_records ++ pr.skipped
            ++ fallbackSkipsSpec
                (env (getPageNumber (normalizeQueryUrl u))).singleSend
                s.st.current_page pr.processed 1) := by
  refine ⟨?_, ?_, ?_, ?_, ?_⟩
  · intro att retries data hd hf
    exact sendToApi_all_fail att retries data hd hf
  · intro f page pubs
    exact ⟨batchFallback_sent f page pubs 1, batchFallback_skips f page pubs 1⟩
  · intro f page pubs e he
    exact batchFallback_entry f page pubs 1 e he
  · intro f page pubs i hok e he hix
    rcases batchFallback_entry f page pubs 1 e he with ⟨hfe, -⟩ | ⟨hfe, -⟩ <;>
      rw [hix, hok] at hfe <;> exact absurd hfe (by decide)
  · intro cfg env cache u s pubs pr hRq hn hmode hpubs hpr hne hpe hsend
    subst hpubs
    subst hpr
    rw [crawlStep_success cfg env cache u s hRq hn]
    simp [hne, hpe, hmode, hsend, batchFallback_skips, List.append_assoc]

/-- Witness for C5: all batch attempts fail on a one-record page; the record
itself then fails individually, and the fallback log is the spec-side one. -/
theorem C5_witness :
    sendToApi (fun _ => false) 3 [⟨"T", 2020, "A", "http://a", "", 0, none⟩]
      = (false, 3)
    ∧ (batchFallback (fun _ => SingleResult.failed) 7
        [⟨"T", 2020, "A", "http://a", "", 0, none⟩] 1).1
      = fallbackSkipsSpec (fun _ => SingleResult.failed) 7
        [⟨"T", 2020, "A", "http://a", "", 0, none⟩] 1 :=
  ⟨C5_batch_fallback.1 (fun _ => false) 3
      [⟨"T", 2020, "A", "http://a", "", 0, none⟩] (List.cons_ne_nil _ _)
      (fun _ _ => rfl),
   (C5_batch_fallback.2.1 (fun _ => SingleResult.failed) 7
      [⟨"T", 2020, "A", "http://a", "", 0, none⟩]).2⟩

/-- Claim C2: the consecutive-error counter resets to zero on any successful
listing-page step and increments by one on a failed one; when the incremented
counter reaches the configured maximum the loop stops (the next cursor becomes
`none`) with the accumulated records and skip log untouched by the tripping
step; across any run the record list only ever grows by appending; and the
final statistics report exactly the accumulated record count. -/
theorem C2_error_counter :
    (∀ (cfg : Config) (env : Nat → PageSpec) (cache : List String) (u : Url)
        (s : LoopState), RobotsQuiet cfg s.st.robots →
        (env (getPageNumber (normalizeQueryUrl u))).navSuccess = true →
        (crawlStep cfg env cache u s).st.consecutive_errors = 0)
    ∧ (∀ (cfg : Config) (env : Nat → PageSpec) (cache : List String) (u : Url)
        (s : LoopState), RobotsQuiet cfg s.st.robots →
        (env (getPageNumber (normalizeQueryUrl u))).navSuccess = false →
        (crawlStep cfg env cache u s).st.consecutive_errors
          = s.st.consecutive_errors + 1)
    ∧ (∀ (cfg : Config) (env : Nat → PageSpec) (cache : List String) (u : Url)
        (s : LoopState), RobotsQuiet cfg s.st.robots →
        (env (getPageNumber (normalizeQueryUrl u))).navSuccess = false →
        cfg.maxConsecutiveErrors ≤ s.st.consecutive_errors + 1 →
        (crawlStep cfg env cache u s).currentUrl = none
        ∧ (crawlStep cfg env cache u s).st.all_publications = s.st.all_publications
        ∧ (crawlStep cfg env cache u s).st.skipped_records = s.st.skipped_records)
    ∧ (∀ (cfg : Config) (env : Nat → PageSpec) (cache : List String)
        (fuel : Nat) (s : LoopState), ∃ t,
        (crawlLoop cfg env cache fuel s).st.all_publications
          = s.st.all_publications ++ t)
    ∧ (∀ data : List Publication,
        (getCrawlingStatistics data).total_publications = data.length) := by
  refine ⟨?_, ?_, ?_, ?_, ?_⟩
  · intro cfg env cache u s hR hn
    rw [crawlStep_success cfg env cache u s hR hn]
  · intro cfg env cache u s hR hn
    by_cases htrip : cfg.maxConsecutiveErrors ≤ s.st.consecutive_errors + 1
    · rw [crawlStep_navFail_stop cfg env cache u s hR hn htrip]
    · rw [crawlStep_navFail_cont cfg env cache u s hR hn htrip]
  · intro cfg env cache u s hR hn htrip
    rw [crawlStep_navFail_stop cfg env cache u s hR hn htrip]
    exact ⟨rfl, rfl, rfl⟩
  · intro cfg env cache fuel s
    exact crawlLoop_pubs_mono cfg env cache fuel s
  · intro data
    cases data with
    | nil => rfl
    | cons p rest => rfl

/-- Witness for C2: a successful step from the seed resets the counter, and a
failing step from a state with four consecutive errors trips the stop. -/
theorem C2_witness :
    (crawlStep cfgB envNoPagination [] seedUrl
      ⟨initialCrawlState rsB, some seedUrl, none⟩).st.consecutive_errors = 0
    ∧ (crawlStep cfgB (fun _ => pageEnvOf false ⟨[], false, []⟩) [] seedUrl
      ⟨⟨[], 4, 4, [], rsB, [], []⟩, some seedUrl, none⟩).currentUrl = none :=
  ⟨C2_error_counter.1 cfgB envNoPagination [] seedUrl
    ⟨initialCrawlState rsB, some seedUrl, none⟩ ⟨fun _ => rfl, rfl⟩ rfl,
   (C2_error_counter.2.2.1 cfgB (fun _ => pageEnvOf false ⟨[], false, []⟩) []
    seedUrl ⟨⟨[], 4, 4, [], rsB, [], []⟩, some seedUrl, none⟩
    ⟨fun _ => rfl, rfl⟩ rfl (by decide)).1⟩

/-- Claim C1: with a total page count N discovered from the first rendered
page and no navigation failures or robots denials, the loop visits exactly
the page indices `0, 1, ..., N-1` once each in increasing order and then
stops; and at each successful step the next cursor is deterministically the
normalized current cursor with its page parameter replaced by the current
index plus one when that index is still below the total, and `none` (stop)
once the computed next index reaches the total. -/
theorem C1_traversal_order :
    (∀ (cfg : Config) (env : Nat → PageSpec) (cache : List String)
        (rs : RobotsState) (seed : Url) (N fuel : Nat),
        RobotsQuiet cfg rs → (∀ k, (env k).navSuccess = true) →
        getPageNumber seed = 0 → getTotalPages (env 0).pagination = N →
        N ≤ fuel →
        (crawlAllPages cfg env cache rs seed fuel).st.navigatedPages
          = List.range N
        ∧ (crawlAllPages cfg env cache rs seed fuel).currentUrl = none)
    ∧ (∀ (cfg : Config) (env : Nat → PageSpec) (cache : List String) (u : Url)
        (s : LoopState) (n : Nat), RobotsQuiet cfg s.st.robots →
        (env (getPageNumber (normalizeQueryUrl u))).navSuccess = true →
        s.totalPages = some n →
        (getPageNumber (normalizeQueryUrl u) + 1 < n →
          (crawlStep cfg env cache u s).currentUrl
            = some (normalizeQueryUrl (setPage (normalizeQueryUrl u)
                (getPageNumber (normalizeQueryUrl u) + 1))))
        ∧ (n ≤ getPageNumber (normalizeQueryUrl u) + 1 →
          (crawlStep cfg env cache u s).currentUrl = none)) := by
  constructor
  · intro cfg env cache rs seed N fuel hR hnav hseed hN hfuel
    have h := crawlAllPages_visits cfg env cache rs seed N fuel hR hnav hseed hN hfuel
    exact ⟨h.1, h.2.2⟩
  · intro cfg env cache u s n hR hn hst
    rw [crawlStep_success cfg env cache u s hR hn]
    constructor
    · intro hlt
      rw [hst]
      show (if n ≤ getPageNumber (normalizeQueryUrl u) + 1 then none
          else some (normalizeQueryUrl (setPage (normalizeQueryUrl u)
            (getPageNumber (normalizeQueryUrl u) + 1))))
        = some (normalizeQueryUrl (setPage (normalizeQueryUrl u)
            (getPageNumber (normalizeQueryUrl u) + 1)))
      rw [if_neg (by omega)]
    · intro hle
      rw [hst]
      show (if n ≤ getPageNumber (normalizeQueryUrl u) + 1 then none
          else some (normalizeQueryUrl (setPage (normalizeQueryUrl u)
            (getPageNumber (normalizeQueryUrl u) + 1))))
        = none
      rw [if_pos hle]

/-- Witness for C1: two declared pages are visited as `[0, 1]` and the loop
stops; from the seed with a recorded total of 5 the next cursor is page 1. -/
theorem C1_witness :
    (crawlAllPages cfgB envTwoPages [] rsB seedUrl 5).st.navigatedPages
      = List.range 2
    ∧ (crawlAllPages cfgB envTwoPages [] rsB seedUrl 5).currentUrl = none
    ∧ (crawlStep cfgB envTwoPages [] seedUrl
        ⟨initialCrawlState rsB, some seedUrl, some 5⟩).currentUrl
      = some (normalizeQueryUrl (setPage (normalizeQueryUrl seedUrl) 1)) := by
  have h1 := C1_traversal_order.1 cfgB envTwoPages [] rsB seedUrl 2 5
    ⟨fun _ => rfl, rfl⟩ (fun _ => rfl) (by decide) (by decide) (by decide)
  have h2 := (C1_traversal_order.2 cfgB envTwoPages [] seedUrl
    ⟨initialCrawlState rsB, some seedUrl, some 5⟩ 5 ⟨fun _ => rfl, rfl⟩ rfl rfl).1
    (by decide)
  exact ⟨h1.1, h1.2, h2⟩

/-- Counterexample to claim C7 as stated: with pagination markup entirely
absent, `get_total_pages` does not fail — it returns its fallback 1 — so the
crawl records a discovered total of 1 and stops on the count-based condition
after page 0 alone, even though page 1 would render successfully; no per-page
has-more / empty-result signal is consulted. -/
theorem C7_counterexample :
    getTotalPages ⟨[], false, []⟩ = 1
    ∧ (crawlAllPages cfgB envNoPagination [] rsB seedUrl 3).totalPages = some 1
    ∧ (crawlAllPages cfgB envNoPagination [] rsB seedUrl 3).st.navigatedPages = [0]
    ∧ (crawlAllPages cfgB envNoPagination [] rsB seedUrl 3).currentUrl = none
    ∧ (envNoPagination 1).navSuccess = true := by
  refine ⟨by decide, by decide, by decide, by decide, rfl⟩

/-- Claim C7 (amended): total-page discovery can never fail — `get_total_pages`
returns at least 1 on every input, falling back to 1 when the pagination
markup is malformed or absent — so the one-time discovery on the first
rendered page always succeeds, and with absent markup the traversal stops on
the count-based condition after visiting page 0 alone, for every environment
(regardless of any has-more or empty-result signal on later pages). -/
theorem C7_total_discovery_fallback :
    (∀ p : Pagination, 1 ≤ getTotalPages p)
    ∧ (∀ (cfg : Config) (env : Nat → PageSpec) (cache : List String)
        (rs : RobotsState) (seed : Url) (fuel : Nat),
        RobotsQuiet cfg rs → (∀ k, (env k).navSuccess = true) →
        getPageNumber seed = 0 → getTotalPages (env 0).pagination = 1 →
        1 ≤ fuel →
        (crawlAllPages cfg env cache rs seed fuel).st.navigatedPages = [0]
        ∧ (crawlAllPages cfg env cache rs seed fuel).totalPages = some 1
        ∧ (crawlAllPages cfg env cache rs seed fuel).currentUrl = none) := by
  refine ⟨one_le_getTotalPages, ?_⟩
  intro cfg env cache rs seed fuel hR hnav hseed hN hfuel
  have h := crawlAllPages_visits cfg env cache rs seed 1 fuel hR hnav hseed hN hfuel
  have hr : List.range 1 = [0] := by decide
  rw [hr] at h
  exact h

/-- Witness for the amended C7 in the no-markup environment. -/
theorem C7_witness :
    (crawlAllPages cfgB envNoPagination [] rsB seedUrl 4).st.navigatedPages = [0]
    ∧ (crawlAllPages cfgB envNoPagination [] rsB seedUrl 4).totalPages = some 1
    ∧ (crawlAllPages cfgB envNoPagination [] rsB seedUrl 4).currentUrl = none :=
  C7_total_discovery_fallback.2 cfgB envNoPagination [] rsB seedUrl 4
    ⟨fun _ => rfl, rfl⟩ (fun _ => rfl) (by decide) (by decide) (by decide)
